import Mathlib

/-!
# events-exercise: the projection processor

A shallow embedding of `internal/events/processor.go` and of the event list of
`internal/events/reader.go`.

Modelling conventions.

* A Go `map[K]V` is a partial function `K → Option V` (`GoMap`); looking a key up,
  testing its presence and storing under a key are the only operations the processor
  uses. A `nil` map is `none : Option (GoMap K V)`: reading from it gives the zero
  value, storing into it is a runtime panic.
* `streamProcessor.accounts` stores `*User`. Every pointer the processor stores is
  freshly allocated by the arm that stores it, so a record is kept by value under
  its key and "mutate through the pointer" is "store the changed record back".
* A Go `int` is an `Int` between `minInt` and `maxInt`, the 64-bit range of the
  targets the program is built for; the `+ 1` and `- 1` of the badge arms wrap
  around that range (`wrapInt`), as Go's signed arithmetic does.
* `NewStreamProcessor` is the only constructor and allocates `accounts`, so that
  map is never `nil`.
* `Process` holds the mutex for its whole body, so one call is one atomic step
  `streamProcessor → Event → Option (streamProcessor × error)`; `none` is a panic.
-/

namespace Events

/-! ## Go maps -/

/-- Go `map[K]V` that has been allocated: a partial function on keys. -/
def GoMap (κ ν : Type) : Type := κ → Option ν

namespace GoMap

variable {κ ν : Type}

/-- The map literal `map[K]V{}`. -/
def empty : GoMap κ ν := fun _ => none

/-- The comma-ok lookup `v, ok := m[k]`. -/
def get? (m : GoMap κ ν) (k : κ) : Option ν := m k

/-- The store `m[k] = v`. -/
def set [DecidableEq κ] (m : GoMap κ ν) (k : κ) (v : ν) : GoMap κ ν :=
  fun k' => if k' = k then some v else m k'

end GoMap

/-! ## Package `accounts` (event declarations) -/

namespace accounts

/-- Modelled from the spec: package `internal/accounts` is not part of the sources.
Colour is "one of a fixed enumeration {blue, red, green}"; the `default` arm of
`toBC` shows that the Go type has further values, kept here as `unknown n`. -/
inductive BadgeColour where
  | BadgeColour_BLUE
  | BadgeColour_RED
  | BadgeColour_GREEN
  | unknown (n : Nat)
  deriving DecidableEq

/-- Modelled from the spec: `AccountCreated{userId}`. -/
structure UserAccountCreatedEvent where
  UserId : String
  deriving DecidableEq

/-- Modelled from the spec: `AccountUpdated{userId, fullName?, email?}`; an absent
field is the empty string. -/
structure UserAccountUpdatedEvent where
  UserId : String
  FullName : String := ""
  Email : String := ""
  deriving DecidableEq

/-- Modelled from the spec: `BadgeGained{userId, colour}`. -/
structure UserGainedBadgeEvent where
  UserId : String
  BadgeColour : BadgeColour
  deriving DecidableEq

/-- Modelled from the spec: `BadgeLost{userId, colour}`. -/
structure UserLostBadgeEvent where
  UserId : String
  BadgeColour : BadgeColour
  deriving DecidableEq

end accounts

/-- The argument of `Process`, a Go `any`: a value of one of the four event struct
types, or a value of any other dynamic type (named by `dynType`). -/
inductive Event where
  | created (evt : accounts.UserAccountCreatedEvent)
  | updated (evt : accounts.UserAccountUpdatedEvent)
  | gained (evt : accounts.UserGainedBadgeEvent)
  | lost (evt : accounts.UserLostBadgeEvent)
  | other (dynType : String)
  deriving DecidableEq

/-! ## processor.go -/

/-- Go `type BadgeStatus string`. -/
abbrev BadgeStatus : Type := String

/-- Go `type BadgeColour string`. -/
abbrev BadgeColour : Type := String

def great : BadgeStatus := "great"
def amazing : BadgeStatus := "amazing"
def ultimate : BadgeStatus := "ultimate"
def champion : BadgeStatus := "champion"

def blue : BadgeColour := "blue"
def red : BadgeColour := "red"
def green : BadgeColour := "green"

/-- The smallest Go `int` (64-bit). -/
def minInt : Int := -9223372036854775808

/-- The largest Go `int` (64-bit). -/
def maxInt : Int := 9223372036854775807

/-- The Go `int` that an arithmetic operation yields when its mathematical result is
`x`: the value of `x` modulo 2^64 that lies between `minInt` and `maxInt`. -/
def wrapInt (x : Int) : Int :=
  (x + 9223372036854775808) % 18446744073709551616 - 9223372036854775808

/-- Go `error`; `none` is `nil`. -/
abbrev error : Type := Option String

/-- The struct `User`; `BadgeCount = none` is the `nil` map. -/
structure User where
  Id : String := ""
  FullName : String := ""
  Email : String := ""
  BadgeCount : Option (GoMap BadgeColour Int) := none

/-- The read `u.BadgeCount[c]`: the zero value when the map is `nil` or has no
entry for `c`. -/
def User.count (u : User) (c : BadgeColour) : Int :=
  match u.BadgeCount with
  | none => 0
  | some m => (m.get? c).getD 0

/-- The struct `streamProcessor` (the embedded mutex is left out). -/
structure streamProcessor where
  accounts : GoMap String User

def toBC (bc : accounts.BadgeColour) : BadgeColour :=
  match bc with
  | .BadgeColour_BLUE => blue
  | .BadgeColour_RED => red
  | .BadgeColour_GREEN => green
  | _ => ""

def newUserWithBadgeCount (bc : accounts.BadgeColour) (count : Int) : User :=
  { BadgeCount := some (GoMap.set GoMap.empty (toBC bc) count) }

def User.BadgeStatus (u : User) : BadgeStatus :=
  let greenCnt := u.count green
  let blueCnt := u.count blue
  let redCnt := u.count red
  if blueCnt ≥ 10 ∧ redCnt ≥ 5 ∧ greenCnt ≥ 1 then champion
  else if blueCnt ≥ 6 ∧ redCnt ≥ 3 then ultimate
  else if blueCnt ≥ 3 then amazing
  else great

def NewStreamProcessor : streamProcessor :=
  { accounts := GoMap.empty }

namespace streamProcessor

def Result (s : streamProcessor) : GoMap String User := s.accounts

def processUserAccountCreatedEvent (s : streamProcessor)
    (event : accounts.UserAccountCreatedEvent) : Option (streamProcessor × error) :=
  match s.accounts.get? event.UserId with
  | none =>
    some ({ accounts := s.accounts.set event.UserId
              { Id := event.UserId, BadgeCount := some GoMap.empty } }, none)
  | some u =>
    let u := { u with Id := event.UserId }
    let u := if u.BadgeCount.isNone then { u with BadgeCount := some GoMap.empty } else u
    some ({ accounts := s.accounts.set event.UserId u }, none)

def processUserAccountUpdatedEvent (s : streamProcessor)
    (event : accounts.UserAccountUpdatedEvent) : Option (streamProcessor × error) :=
  match s.accounts.get? event.UserId with
  | none =>
    some ({ accounts := s.accounts.set event.UserId
              { Id := event.UserId, FullName := event.FullName, Email := event.Email,
                BadgeCount := some GoMap.empty } }, none)
  | some u =>
    let u := if event.FullName ≠ "" then { u with FullName := event.FullName } else u
    let u := if event.Email ≠ "" then { u with Email := event.Email } else u
    some ({ accounts := s.accounts.set event.UserId u }, none)

def processUserGainedBadgeEvent (s : streamProcessor)
    (event : accounts.UserGainedBadgeEvent) : Option (streamProcessor × error) :=
  match s.accounts.get? event.UserId with
  | none =>
    some ({ accounts := s.accounts.set event.UserId
              (newUserWithBadgeCount event.BadgeColour 1) }, none)
  | some usr =>
    match usr.BadgeCount with
    | none => none -- the lookup in a nil map misses, the store that follows panics
    | some m =>
      match m.get? (toBC event.BadgeColour) with
      | none =>
        some ({ accounts := s.accounts.set event.UserId
                  { usr with BadgeCount := some (m.set (toBC event.BadgeColour) 1) } }, none)
      | some n =>
        some ({ accounts := s.accounts.set event.UserId
                  { usr with BadgeCount := some (m.set (toBC event.BadgeColour) (wrapInt (n + 1))) } },
              none)

def processUserLostBadgeEvent (s : streamProcessor)
    (event : accounts.UserLostBadgeEvent) : Option (streamProcessor × error) :=
  match s.accounts.get? event.UserId with
  | none =>
    some ({ accounts := s.accounts.set event.UserId
              (newUserWithBadgeCount event.BadgeColour (-1)) }, none)
  | some usr =>
    match usr.BadgeCount with
    | none => none -- the lookup in a nil map misses, the store that follows panics
    | some m =>
      match m.get? (toBC event.BadgeColour) with
      | none =>
        some ({ accounts := s.accounts.set event.UserId
                  { usr with BadgeCount := some (m.set (toBC event.BadgeColour) (-1)) } }, none)
      | some n =>
        some ({ accounts := s.accounts.set event.UserId
                  { usr with BadgeCount := some (m.set (toBC event.BadgeColour) (wrapInt (n - 1))) } },
              none)

def processBadges (s : streamProcessor) (event : Event) : Option (streamProcessor × error) :=
  match event with
  | .created evt => s.processUserAccountCreatedEvent evt
  | .updated evt => s.processUserAccountUpdatedEvent evt
  | .gained evt => s.processUserGainedBadgeEvent evt
  | .lost evt => s.processUserLostBadgeEvent evt
  | .other _ => some (s, none)

def Process (s : streamProcessor) (event : Event) : Option (streamProcessor × error) :=
  s.processBadges event

/-- Calls `Process` on the events of a list one at a time, in list order, as one
reader does on the events it receives: a returned error is logged and the next
event is processed; a panic ends the run. -/
def processAll (s : streamProcessor) : List Event → Option streamProcessor
  | [] => some s
  | evt :: rest =>
    match s.Process evt with
    | none => none
    | some (s', _) => processAll s' rest

end streamProcessor

/-! ## reader.go -/

def eventSequence : List Event :=
  [ .created { UserId := "0af3a961-5146-46b5-93f8-95c0ab687007" },
    .created { UserId := "d60f3e10-b707-4c76-b165-da38b95aa4b9" },
    .created { UserId := "6c5031e7-ff1c-4986-ac27-05a2737cd2f4" },
    .gained { UserId := "0af3a961-5146-46b5-93f8-95c0ab687007", BadgeColour := .BadgeColour_BLUE },
    .gained { UserId := "0af3a961-5146-46b5-93f8-95c0ab687007", BadgeColour := .BadgeColour_BLUE },
    .gained { UserId := "0af3a961-5146-46b5-93f8-95c0ab687007", BadgeColour := .BadgeColour_BLUE },
    .gained { UserId := "d60f3e10-b707-4c76-b165-da38b95aa4b9", BadgeColour := .BadgeColour_BLUE },
    .updated { UserId := "d60f3e10-b707-4c76-b165-da38b95aa4b9", FullName := "Rosetta Brandon",
               Email := "rbrandon@test.com" },
    .gained { UserId := "d60f3e10-b707-4c76-b165-da38b95aa4b9", BadgeColour := .BadgeColour_BLUE },
    .gained { UserId := "d60f3e10-b707-4c76-b165-da38b95aa4b9", BadgeColour := .BadgeColour_RED },
    .gained { UserId := "0af3a961-5146-46b5-93f8-95c0ab687007", BadgeColour := .BadgeColour_BLUE },
    .updated { UserId := "0af3a961-5146-46b5-93f8-95c0ab687007", FullName := "Anthony Swiss",
               Email := "anthony.swiss@test.com" },
    .gained { UserId := "0af3a961-5146-46b5-93f8-95c0ab687007", BadgeColour := .BadgeColour_GREEN },
    .lost { UserId := "0af3a961-5146-46b5-93f8-95c0ab687007", BadgeColour := .BadgeColour_BLUE },
    .gained { UserId := "d60f3e10-b707-4c76-b165-da38b95aa4b9", BadgeColour := .BadgeColour_BLUE },
    .gained { UserId := "d60f3e10-b707-4c76-b165-da38b95aa4b9", BadgeColour := .BadgeColour_BLUE },
    .gained { UserId := "0af3a961-5146-46b5-93f8-95c0ab687007", BadgeColour := .BadgeColour_RED },
    .gained { UserId := "0af3a961-5146-46b5-93f8-95c0ab687007", BadgeColour := .BadgeColour_GREEN },
    .gained { UserId := "d60f3e10-b707-4c76-b165-da38b95aa4b9", BadgeColour := .BadgeColour_BLUE },
    .gained { UserId := "d60f3e10-b707-4c76-b165-da38b95aa4b9", BadgeColour := .BadgeColour_BLUE },
    .gained { UserId := "d60f3e10-b707-4c76-b165-da38b95aa4b9", BadgeColour := .BadgeColour_RED },
    .gained { UserId := "d60f3e10-b707-4c76-b165-da38b95aa4b9", BadgeColour := .BadgeColour_RED },
    .lost { UserId := "d60f3e10-b707-4c76-b165-da38b95aa4b9", BadgeColour := .BadgeColour_RED },
    .gained { UserId := "d60f3e10-b707-4c76-b165-da38b95aa4b9", BadgeColour := .BadgeColour_RED },
    .gained { UserId := "d60f3e10-b707-4c76-b165-da38b95aa4b9", BadgeColour := .BadgeColour_RED },
    .gained { UserId := "6c5031e7-ff1c-4986-ac27-05a2737cd2f4", BadgeColour := .BadgeColour_BLUE },
    .gained { UserId := "6c5031e7-ff1c-4986-ac27-05a2737cd2f4", BadgeColour := .BadgeColour_BLUE },
    .gained { UserId := "6c5031e7-ff1c-4986-ac27-05a2737cd2f4", BadgeColour := .BadgeColour_BLUE },
    .gained { UserId := "6c5031e7-ff1c-4986-ac27-05a2737cd2f4", BadgeColour := .BadgeColour_BLUE },
    .gained { UserId := "6c5031e7-ff1c-4986-ac27-05a2737cd2f4", BadgeColour := .BadgeColour_BLUE },
    .gained { UserId := "6c5031e7-ff1c-4986-ac27-05a2737cd2f4", BadgeColour := .BadgeColour_BLUE },
    .updated { UserId := "6c5031e7-ff1c-4986-ac27-05a2737cd2f4", FullName := "Neves Firmino",
               Email := "neves88@test.com" },
    .gained { UserId := "6c5031e7-ff1c-4986-ac27-05a2737cd2f4", BadgeColour := .BadgeColour_BLUE },
    .gained { UserId := "6c5031e7-ff1c-4986-ac27-05a2737cd2f4", BadgeColour := .BadgeColour_BLUE },
    .updated { UserId := "6c5031e7-ff1c-4986-ac27-05a2737cd2f4", Email := "neves.firmino@test.com" },
    .gained { UserId := "6c5031e7-ff1c-4986-ac27-05a2737cd2f4", BadgeColour := .BadgeColour_RED },
    .gained { UserId := "6c5031e7-ff1c-4986-ac27-05a2737cd2f4", BadgeColour := .BadgeColour_RED },
    .gained { UserId := "6c5031e7-ff1c-4986-ac27-05a2737cd2f4", BadgeColour := .BadgeColour_RED },
    .gained { UserId := "6c5031e7-ff1c-4986-ac27-05a2737cd2f4", BadgeColour := .BadgeColour_RED },
    .gained { UserId := "6c5031e7-ff1c-4986-ac27-05a2737cd2f4", BadgeColour := .BadgeColour_RED },
    .gained { UserId := "6c5031e7-ff1c-4986-ac27-05a2737cd2f4", BadgeColour := .BadgeColour_GREEN },
    .updated { UserId := "0af3a961-5146-46b5-93f8-95c0ab687007", FullName := "Anthony Swiss-Jones" } ]

/-- A projection the processor can be in: the one of `NewStreamProcessor`, or one
left by a `Process` call that returned, made on a reachable projection. -/
inductive Reachable : streamProcessor → Prop where
  | init : Reachable NewStreamProcessor
  | step {s s' : streamProcessor} {err : error} (evt : Event) :
      Reachable s → s.Process evt = some (s', err) → Reachable s'

/-! ## Auxiliary definitions used by the statements -/

/-- The event is a `UserGainedBadgeEvent` or a `UserLostBadgeEvent` of user `uid`. -/
def Event.isBadgeEventOf (uid : String) : Event → Bool
  | .gained evt => evt.UserId = uid
  | .lost evt => evt.UserId = uid
  | _ => false

/-- Both badge arms in one: add `d`, in Go `int` arithmetic, to the count of colour
`c` of user `uid`, a missing colour starting from 0 and a missing user from a record
that has only that colour. -/
def streamProcessor.bump (s : streamProcessor) (uid : String) (c : BadgeColour) (d : Int) :
    Option (streamProcessor × error) :=
  match s.accounts uid with
  | none =>
    some ({ accounts := s.accounts.set uid
              { BadgeCount := some (GoMap.set GoMap.empty c (wrapInt d)) } }, none)
  | some usr =>
    match usr.BadgeCount with
    | none => none
    | some m =>
      some ({ accounts := s.accounts.set uid
                { usr with BadgeCount := some (m.set c (wrapInt ((m c).getD 0 + d))) } }, none)

/-- The event's dynamic type is one of the four struct types `processBadges`
has an arm for. -/
def Event.recognised : Event → Bool
  | .other _ => false
  | _ => true

/-- The record of `uid`, when there is one, has an allocated badge map. -/
def badgeMapAllocated (s : streamProcessor) (uid : String) : Prop :=
  ∀ usr, s.accounts uid = some usr → usr.BadgeCount ≠ none

/-- The `UserId` field of an event of one of the four recognised types; a value of
another type has none. -/
def Event.userId : Event → Option String
  | .created evt => some evt.UserId
  | .updated evt => some evt.UserId
  | .gained evt => some evt.UserId
  | .lost evt => some evt.UserId
  | .other _ => none

/-- The count of colour `c` read from the record stored under `uid`; 0 when no record
is stored under `uid`. -/
def streamProcessor.countOf (s : streamProcessor) (uid : String) (c : BadgeColour) : Int :=
  match s.accounts uid with
  | none => 0
  | some u => u.count c

/-- What one event contributes to the count of colour `c` of user `uid`: 1 for a
BadgeGained of that user and colour, -1 for a BadgeLost of them, 0 otherwise. -/
def Event.delta (uid : String) (c : BadgeColour) : Event → Int
  | .gained evt => if evt.UserId = uid ∧ toBC evt.BadgeColour = c then 1 else 0
  | .lost evt => if evt.UserId = uid ∧ toBC evt.BadgeColour = c then -1 else 0
  | _ => 0

/-! ## reader.go: `Read` and the pool of `NewStreamReader` -/

/-- What one receive of the loop `for evt := range ch` yields: the next event, or the
end of the loop, which a channel yields once it is closed and drained. While the
channel is empty and open the receive blocks and yields nothing. -/
inductive Recv where
  | value (evt : Event)
  | closedAndDrained
  deriving DecidableEq

/-- What a call of `Read` has done after the receives it was given. -/
structure ReadOutcome (σ : Type) where
  /-- State of `s.processor` after the calls made. -/
  processor : σ
  /-- Arguments of the `Process` calls made, in call order. -/
  calls : List Event
  /-- Events passed to `s.logger.Error`, in call order. -/
  logged : List Event
  /-- `Read` has returned (otherwise it is blocked in the receive). -/
  returned : Bool

/-- The method `streamReader.Read`, for a processor given as a state `σ` and a
`Process` method whose calls return the next state and an error: each received
event is passed to `Process` and logged when the error is not nil, and the loop
goes on to the next receive. -/
def streamReader.Read {σ : Type} (Process : σ → Event → σ × error) :
    σ → List Recv → ReadOutcome σ
  | p, [] => { processor := p, calls := [], logged := [], returned := false }
  | p, .closedAndDrained :: _ => { processor := p, calls := [], logged := [], returned := true }
  | p, .value evt :: rest =>
    let r := Process p evt
    let o := streamReader.Read Process r.1 rest
    { o with calls := evt :: o.calls,
             logged := if r.2 ≠ none then evt :: o.logged else o.logged }

/-- The constant `numReaders` of `NewStreamReader`: the number of readers started and
the capacity of `evtChan`. -/
def numReaders : Nat := 3

/-- Where a goroutine `go sr.Read(evtChan)` stands. -/
inductive ReaderPc where
  /-- At the receive of `for evt := range ch`. -/
  | receiving
  /-- Has received `evt` and has not called `Process` on it yet. -/
  | holding (evt : Event)
  /-- `Read` has returned. -/
  | returned
  deriving DecidableEq

/-- State of one run of `NewStreamReader(p, l)` together with the readers it starts. -/
structure Pool where
  /-- Events of `eventSequence()` the send loop has not sent yet. -/
  toSend : List Event
  /-- Buffer of `evtChan`, oldest event first. -/
  evtChan : List Event
  /-- The statement `close(evtChan)` has run. -/
  closed : Bool
  /-- The call `NewStreamReader(p, l)` has returned to its caller. -/
  returned : Bool
  /-- The readers, numbered from 0 to `numReaders - 1`. -/
  readers : Nat → ReaderPc
  /-- The processor `p` shared by the readers. -/
  processor : streamProcessor

/-- The run of `NewStreamReader(p, l)` once the channel is made and the readers are
started: nothing sent, every reader at its receive. -/
def NewStreamReader (p : streamProcessor) : Pool :=
  { toSend := eventSequence, evtChan := [], closed := false, returned := false,
    readers := fun _ => .receiving, processor := p }

/-- The atomic steps of the goroutines of a run. -/
inductive Action where
  /-- The send `evtChan <- evt` of the loop of `NewStreamReader`. -/
  | send
  /-- The statement `close(evtChan)`. -/
  | close
  /-- The return of `NewStreamReader`. -/
  | ret
  /-- Reader `i` receives the oldest event of the buffer. -/
  | recv (i : Nat)
  /-- Reader `i` calls `Process` on the event it holds. -/
  | call (i : Nat)
  /-- Reader `i` finds the channel closed and drained and returns from `Read`. -/
  | exit (i : Nat)
  deriving DecidableEq

/-- One step of a run; `none` when the step is not enabled in the state (a send on a
full buffer blocks, a receive on an empty open channel blocks) or a `Process` call
panics. -/
def Pool.step (st : Pool) : Action → Option Pool
  | .send =>
    match st.toSend with
    | evt :: rest =>
      if st.evtChan.length < numReaders ∧ st.closed = false then
        some { st with toSend := rest, evtChan := st.evtChan ++ [evt] }
      else none
    | [] => none
  | .close =>
    if st.toSend = [] ∧ st.closed = false then some { st with closed := true } else none
  | .ret =>
    if st.closed = true ∧ st.returned = false then some { st with returned := true } else none
  | .recv i =>
    if i < numReaders then
      match st.readers i, st.evtChan with
      | .receiving, evt :: rest =>
        some { st with evtChan := rest,
                       readers := fun j => if j = i then .holding evt else st.readers j }
      | _, _ => none
    else none
  | .call i =>
    match st.readers i with
    | .holding evt =>
      match st.processor.Process evt with
      | some (p, _) =>
        some { st with processor := p,
                       readers := fun j => if j = i then .receiving else st.readers j }
      | none => none
    | _ => none
  | .exit i =>
    match st.readers i, st.evtChan with
    | .receiving, [] =>
      if st.closed = true then
        some { st with readers := fun j => if j = i then .returned else st.readers j }
      else none
    | _, _ => none

/-- A run: the steps of a schedule taken one after the other. -/
def Pool.run (st : Pool) : List Action → Option Pool
  | [] => some st
  | a :: rest =>
    match st.step a with
    | some st' => Pool.run st' rest
    | none => none

/-- The schedule in which reader 0 receives and processes each of the first 39
events as soon as it is sent, and the last three events are sent, the channel is
closed and `NewStreamReader` returns before any reader runs again. -/
def lateReaders : List Action :=
  (List.replicate 39 [Action.send, Action.recv 0, Action.call 0]).flatten ++
    [Action.send, Action.send, Action.send, Action.close, Action.ret]

/-- The place of a tier in the order great < amazing < ultimate < champion; a string
that is none of the four constants has the place of great. -/
def tierRank (t : BadgeStatus) : Nat :=
  if t = champion then 3
  else if t = ultimate then 2
  else if t = amazing then 1
  else 0

/-! ## The end-to-end scenario -/

open streamProcessor

/-- C1: processing `eventSequence` in list order from the projection of
`NewStreamProcessor` gives, for each of the three users of the test, the expected
full name, e-mail and badge counts, and no colour key beyond the expected ones. -/
theorem C1_eventSequence_projection :
    ∃ s, NewStreamProcessor.processAll eventSequence = some s ∧
      (∃ u m, s.Result "0af3a961-5146-46b5-93f8-95c0ab687007" = some u ∧
        u.FullName = "Anthony Swiss-Jones" ∧ u.Email = "anthony.swiss@test.com" ∧
        u.BadgeCount = some m ∧ m "blue" = some 3 ∧ m "green" = some 2 ∧ m "red" = some 1 ∧
        ∀ c, c ≠ "blue" → c ≠ "green" → c ≠ "red" → m c = none) ∧
      (∃ u m, s.Result "6c5031e7-ff1c-4986-ac27-05a2737cd2f4" = some u ∧
        u.FullName = "Neves Firmino" ∧ u.Email = "neves.firmino@test.com" ∧
        u.BadgeCount = some m ∧ m "blue" = some 8 ∧ m "green" = some 1 ∧ m "red" = some 5 ∧
        ∀ c, c ≠ "blue" → c ≠ "green" → c ≠ "red" → m c = none) ∧
      (∃ u m, s.Result "d60f3e10-b707-4c76-b165-da38b95aa4b9" = some u ∧
        u.FullName = "Rosetta Brandon" ∧ u.Email = "rbrandon@test.com" ∧
        u.BadgeCount = some m ∧ m "blue" = some 6 ∧ m "red" = some 4 ∧
        ∀ c, c ≠ "blue" → c ≠ "red" → m c = none) := by
  refine ⟨_, rfl, ⟨_, _, rfl, rfl, rfl, rfl, rfl, rfl, rfl, ?_⟩,
    ⟨_, _, rfl, rfl, rfl, rfl, rfl, rfl, rfl, ?_⟩, ⟨_, _, rfl, rfl, rfl, rfl, rfl, rfl, ?_⟩⟩
  · intro c h1 h2 h3
    simp [GoMap.set, GoMap.empty, toBC, blue, red, green, h1, h2, h3]
  · intro c h1 h2 h3
    simp [GoMap.set, GoMap.empty, toBC, blue, red, green, h1, h2, h3]
  · intro c h1 h2
    simp [GoMap.set, GoMap.empty, toBC, blue, red, green, h1, h2]

/-! ## The badge classifier -/

/-- C2: for every badge-count mapping (the `nil` map included), reading an absent
colour as 0, `BadgeStatus` is champion when blue ≥ 10, red ≥ 5 and green ≥ 1, else
ultimate when blue ≥ 6 and red ≥ 3, else amazing when blue ≥ 3, else great. -/
theorem C2_BadgeStatus_first_match (id fullName email : String)
    (badgeCount : Option (GoMap BadgeColour Int)) :
    let read : BadgeColour → Int := fun c =>
      match badgeCount with
      | some m => (match m c with | some n => n | none => 0)
      | none => 0
    User.BadgeStatus ⟨id, fullName, email, badgeCount⟩ =
      if 10 ≤ read "blue" ∧ 5 ≤ read "red" ∧ 1 ≤ read "green" then "champion"
      else if 6 ≤ read "blue" ∧ 3 ≤ read "red" then "ultimate"
      else if 3 ≤ read "blue" then "amazing"
      else "great" := by
  intro read
  have hread : ∀ c, User.count ⟨id, fullName, email, badgeCount⟩ c = read c := by
    intro c
    cases badgeCount with
    | none => rfl
    | some m =>
      show (m.get? c).getD 0 = (match m c with | some n => n | none => 0)
      unfold GoMap.get?
      cases m c <;> rfl
  simp only [User.BadgeStatus, hread, blue, red, green, champion, ultimate, amazing, great,
    ge_iff_le]


/-! ## Badge events commute -/

theorem GoMap.set_self {κ ν : Type} [DecidableEq κ] (m : GoMap κ ν) (k : κ) (v : ν) :
    (m.set k v) k = some v := by
  simp [GoMap.set]

theorem GoMap.set_other {κ ν : Type} [DecidableEq κ] (m : GoMap κ ν) {k k' : κ} (v : ν)
    (h : k' ≠ k) : (m.set k v) k' = m k' := by
  simp [GoMap.set, h]

theorem GoMap.set_set {κ ν : Type} [DecidableEq κ] (m : GoMap κ ν) (k : κ) (v w : ν) :
    (m.set k v).set k w = m.set k w := by
  funext k'
  by_cases h : k' = k <;> simp [GoMap.set, h]

theorem GoMap.set_swap {κ ν : Type} [DecidableEq κ] (m : GoMap κ ν) {k₁ k₂ : κ} (v w : ν)
    (h : k₁ ≠ k₂) : (m.set k₁ v).set k₂ w = (m.set k₂ w).set k₁ v := by
  funext k'
  by_cases h₁ : k' = k₁
  · have h₂ : k' ≠ k₂ := fun e => h (h₁.symm.trans e)
    simp [GoMap.set, h₁, h₁ ▸ h₂]
  · by_cases h₂ : k' = k₂
    · simp [GoMap.set, h₂, h₂ ▸ h₁]
    · simp [GoMap.set, h₁, h₂]

theorem wrapInt_of_inRange {x : Int} (h₁ : minInt ≤ x) (h₂ : x ≤ maxInt) : wrapInt x = x := by
  unfold minInt at h₁
  unfold maxInt at h₂
  unfold wrapInt
  omega

theorem wrapInt_inRange (x : Int) : minInt ≤ wrapInt x ∧ wrapInt x ≤ maxInt := by
  unfold minInt maxInt wrapInt
  omega

theorem wrapInt_wrapInt_add (x d : Int) : wrapInt (wrapInt x + d) = wrapInt (x + d) := by
  unfold wrapInt
  omega

theorem wrapInt_one : wrapInt 1 = 1 := by decide

theorem wrapInt_neg_one : wrapInt (-1) = -1 := by decide

theorem bump_absent {s : streamProcessor} {uid : String} (c : BadgeColour) (d : Int)
    (h : s.accounts uid = none) :
    s.bump uid c d =
      some ({ accounts := s.accounts.set uid
                { BadgeCount := some (GoMap.set GoMap.empty c (wrapInt d)) } }, none) := by
  simp only [bump, h]

theorem bump_nil {s : streamProcessor} {uid : String} {usr : User} (c : BadgeColour) (d : Int)
    (h : s.accounts uid = some usr) (hm : usr.BadgeCount = none) :
    s.bump uid c d = none := by
  simp only [bump, h, hm]

theorem bump_present {s : streamProcessor} {uid : String} {usr : User}
    {m : GoMap BadgeColour Int} (c : BadgeColour) (d : Int)
    (h : s.accounts uid = some usr) (hm : usr.BadgeCount = some m) :
    s.bump uid c d =
      some ({ accounts := s.accounts.set uid
                { usr with BadgeCount := some (m.set c (wrapInt ((m c).getD 0 + d))) } },
            none) := by
  simp only [bump, h, hm]

theorem Process_gained_eq_bump (s : streamProcessor) (evt : accounts.UserGainedBadgeEvent) :
    s.Process (.gained evt) = s.bump evt.UserId (toBC evt.BadgeColour) 1 := by
  cases h : s.accounts evt.UserId with
  | none =>
    simp only [Process, processBadges, processUserGainedBadgeEvent, bump, GoMap.get?, h,
      newUserWithBadgeCount, wrapInt_one]
  | some usr =>
    cases hm : usr.BadgeCount with
    | none =>
      simp only [Process, processBadges, processUserGainedBadgeEvent, bump, GoMap.get?, h, hm]
    | some m =>
      cases hc : m (toBC evt.BadgeColour) <;>
        simp [Process, processBadges, processUserGainedBadgeEvent, bump, GoMap.get?, h, hm, hc,
          wrapInt_one]

theorem Process_lost_eq_bump (s : streamProcessor) (evt : accounts.UserLostBadgeEvent) :
    s.Process (.lost evt) = s.bump evt.UserId (toBC evt.BadgeColour) (-1) := by
  cases h : s.accounts evt.UserId with
  | none =>
    simp only [Process, processBadges, processUserLostBadgeEvent, bump, GoMap.get?, h,
      newUserWithBadgeCount, wrapInt_neg_one]
  | some usr =>
    cases hm : usr.BadgeCount with
    | none =>
      simp only [Process, processBadges, processUserLostBadgeEvent, bump, GoMap.get?, h, hm]
    | some m =>
      cases hc : m (toBC evt.BadgeColour) <;>
        simp [Process, processBadges, processUserLostBadgeEvent, bump, GoMap.get?, h, hm, hc,
          sub_eq_add_neg, wrapInt_neg_one]

/-- Every badge event of user `uid` is a `bump` of that user. -/
theorem Process_badge_eq_bump (uid : String) (evt : Event)
    (h : evt.isBadgeEventOf uid = true) :
    ∃ c d, ∀ t : streamProcessor, t.Process evt = t.bump uid c d := by
  cases evt with
  | gained e =>
    have : e.UserId = uid := by simpa [Event.isBadgeEventOf] using h
    exact ⟨toBC e.BadgeColour, 1, fun t => this ▸ Process_gained_eq_bump t e⟩
  | lost e =>
    have : e.UserId = uid := by simpa [Event.isBadgeEventOf] using h
    exact ⟨toBC e.BadgeColour, -1, fun t => this ▸ Process_lost_eq_bump t e⟩
  | created e => simp [Event.isBadgeEventOf] at h
  | updated e => simp [Event.isBadgeEventOf] at h
  | other e => simp [Event.isBadgeEventOf] at h

/-- Two bumps of one user give the same projection in either order. -/
theorem bump_bump_comm (s : streamProcessor) (uid : String) (c₁ c₂ : BadgeColour) (d₁ d₂ : Int) :
    (s.bump uid c₁ d₁).bind (fun r => r.1.bump uid c₂ d₂) =
      (s.bump uid c₂ d₂).bind (fun r => r.1.bump uid c₁ d₁) := by
  have hw : ∀ x : Int, wrapInt (wrapInt (x + d₁) + d₂) = wrapInt (wrapInt (x + d₂) + d₁) := by
    intro x
    rw [wrapInt_wrapInt_add, wrapInt_wrapInt_add, add_right_comm]
  have hw₀ : wrapInt (wrapInt d₁ + d₂) = wrapInt (wrapInt d₂ + d₁) := by
    rw [wrapInt_wrapInt_add, wrapInt_wrapInt_add, add_comm]
  cases hs : s.accounts uid with
  | none =>
    rw [bump_absent c₁ d₁ hs, bump_absent c₂ d₂ hs, Option.some_bind, Option.some_bind,
      bump_present c₂ d₂ (GoMap.set_self _ _ _) rfl,
      bump_present c₁ d₁ (GoMap.set_self _ _ _) rfl]
    simp only [GoMap.set_set]
    by_cases hc : c₁ = c₂
    · subst hc
      simp [GoMap.set_self, GoMap.set_set, hw₀]
    · have hc' : c₂ ≠ c₁ := fun h => hc h.symm
      simp [GoMap.set_other _ _ hc, GoMap.set_other _ _ hc', GoMap.empty,
        GoMap.set_swap _ _ _ hc]
  | some usr =>
    cases hm : usr.BadgeCount with
    | none => rw [bump_nil c₁ d₁ hs hm, bump_nil c₂ d₂ hs hm]; rfl
    | some m =>
      rw [bump_present c₁ d₁ hs hm, bump_present c₂ d₂ hs hm, Option.some_bind,
        Option.some_bind, bump_present c₂ d₂ (GoMap.set_self _ _ _) rfl,
        bump_present c₁ d₁ (GoMap.set_self _ _ _) rfl]
      simp only [GoMap.set_set]
      by_cases hc : c₁ = c₂
      · subst hc
        simp [GoMap.set_self, GoMap.set_set, hw]
      · have hc' : c₂ ≠ c₁ := fun h => hc h.symm
        simp [GoMap.set_other _ _ hc, GoMap.set_other _ _ hc', GoMap.set_swap _ _ _ hc]

theorem processAll_cons (s : streamProcessor) (evt : Event) (l : List Event) :
    s.processAll (evt :: l) = (s.Process evt).bind (fun r => r.1.processAll l) := by
  cases h : s.Process evt with
  | none => simp only [processAll, h, Option.none_bind]
  | some r => simp only [processAll, h, Option.some_bind]

/-- A run over badge events of one user does not depend on their order, from any
projection. -/
theorem processAll_perm_of_badge (uid : String) {l₁ l₂ : List Event} (hperm : l₁.Perm l₂) :
    (∀ e ∈ l₁, e.isBadgeEventOf uid = true) →
      ∀ s : streamProcessor, s.processAll l₁ = s.processAll l₂ := by
  induction hperm with
  | nil => intro _ _; rfl
  | cons x _ ih =>
    intro hb s
    rw [processAll_cons, processAll_cons]
    have ih' := ih (fun e he => hb e (List.mem_cons_of_mem _ he))
    cases s.Process x with
    | none => rfl
    | some r => exact ih' r.1
  | swap x y l =>
    intro hb s
    obtain ⟨c₁, d₁, hx⟩ := Process_badge_eq_bump uid x (hb x (by simp))
    obtain ⟨c₂, d₂, hy⟩ := Process_badge_eq_bump uid y (hb y (by simp))
    have hcomm := bump_bump_comm s uid c₁ c₂ d₁ d₂
    rw [processAll_cons, processAll_cons, hy, hx]
    have e₁ : ((s.bump uid c₂ d₂).bind fun r => r.1.processAll (x :: l)) =
        ((s.bump uid c₂ d₂).bind fun r => r.1.bump uid c₁ d₁).bind
          fun r => r.1.processAll l := by
      rw [Option.bind_assoc]
      congr 1
      funext r
      rw [processAll_cons, hx]
    have e₂ : ((s.bump uid c₁ d₁).bind fun r => r.1.processAll (y :: l)) =
        ((s.bump uid c₁ d₁).bind fun r => r.1.bump uid c₂ d₂).bind
          fun r => r.1.processAll l := by
      rw [Option.bind_assoc]
      congr 1
      funext r
      rw [processAll_cons, hy]
    rw [e₁, e₂, hcomm]
  | trans h₁ _ ih₁ ih₂ =>
    intro hb s
    rw [ih₁ hb s]
    exact ih₂ (fun e he => hb e (h₁.mem_iff.mpr he)) s

theorem bump_total (s : streamProcessor) (uid : String) (c : BadgeColour) (d : Int)
    (h : badgeMapAllocated s uid) :
    ∃ s', s.bump uid c d = some (s', none) ∧ badgeMapAllocated s' uid := by
  cases hs : s.accounts uid with
  | none =>
    refine ⟨_, bump_absent c d hs, ?_⟩
    intro usr husr
    simp only [GoMap.set_self, Option.some.injEq] at husr
    subst husr
    simp
  | some usr =>
    cases hm : usr.BadgeCount with
    | none => exact absurd hm (h usr hs)
    | some m =>
      refine ⟨_, bump_present c d hs hm, ?_⟩
      intro usr' husr
      simp only [GoMap.set_self, Option.some.injEq] at husr
      subst husr
      simp

theorem processAll_badge_total (uid : String) (l : List Event) :
    (∀ e ∈ l, e.isBadgeEventOf uid = true) →
      ∀ s : streamProcessor, badgeMapAllocated s uid → ∃ s', s.processAll l = some s' := by
  induction l with
  | nil => intro _ s _; exact ⟨s, rfl⟩
  | cons x l ih =>
    intro hb s hs
    obtain ⟨c, d, hx⟩ := Process_badge_eq_bump uid x (hb x (by simp))
    obtain ⟨s', hs', hal⟩ := bump_total s uid c d hs
    rw [processAll_cons, hx, hs', Option.some_bind]
    exact ih (fun e he => hb e (List.mem_cons_of_mem _ he)) s' hal

/-- C3: for every user id, every list of BadgeGained/BadgeLost events of that user
and every permutation of it, processing either list in order from the empty
projection returns, and the user's final badge-count mapping is the same (same
colour keys, same counts). -/
theorem C3_badge_counts_order_independent (uid : String) (l₁ l₂ : List Event)
    (hperm : l₁.Perm l₂) (hbadge : ∀ e ∈ l₁, e.isBadgeEventOf uid = true) :
    ∃ s₁ s₂, NewStreamProcessor.processAll l₁ = some s₁ ∧
      NewStreamProcessor.processAll l₂ = some s₂ ∧
      (s₁.Result uid).map User.BadgeCount = (s₂.Result uid).map User.BadgeCount := by
  have hinit : badgeMapAllocated NewStreamProcessor uid := by
    intro usr h
    simp [NewStreamProcessor, GoMap.empty] at h
  obtain ⟨s₁, h₁⟩ := processAll_badge_total uid l₁ hbadge NewStreamProcessor hinit
  have h₂ := processAll_perm_of_badge uid hperm hbadge NewStreamProcessor
  exact ⟨s₁, s₁, h₁, h₂ ▸ h₁, rfl⟩

theorem C3_badge_counts_order_independent_witness :
    ([Event.gained ⟨"u1", .BadgeColour_BLUE⟩, Event.lost ⟨"u1", .BadgeColour_RED⟩].Perm
        [Event.lost ⟨"u1", .BadgeColour_RED⟩, Event.gained ⟨"u1", .BadgeColour_BLUE⟩]) ∧
      (∀ e ∈ [Event.gained ⟨"u1", .BadgeColour_BLUE⟩, Event.lost ⟨"u1", .BadgeColour_RED⟩],
        e.isBadgeEventOf "u1" = true) ∧
      ∃ s₁ s₂,
        NewStreamProcessor.processAll
            [Event.gained ⟨"u1", .BadgeColour_BLUE⟩, Event.lost ⟨"u1", .BadgeColour_RED⟩] =
          some s₁ ∧
        NewStreamProcessor.processAll
            [Event.lost ⟨"u1", .BadgeColour_RED⟩, Event.gained ⟨"u1", .BadgeColour_BLUE⟩] =
          some s₂ ∧
        (s₁.Result "u1").map User.BadgeCount = (s₂.Result "u1").map User.BadgeCount :=
  ⟨List.Perm.swap _ _ _, by decide,
    C3_badge_counts_order_independent "u1" _ _ (List.Perm.swap _ _ _) (by decide)⟩


/-! ## The four dispatch rules -/

/-- C4 (counterexample): on a projection in which user "u1" has blue at the largest
`int`, 9223372036854775807, a BadgeGained{u1, blue} leaves blue at the smallest
`int`, -9223372036854775808, and not at the previous count plus 1. -/
theorem C4_BadgeGained_wraps_at_maxInt :
    ∃ s' u' m',
      streamProcessor.Process
          ⟨GoMap.set GoMap.empty "u1"
            ⟨"u1", "Ann", "ann@test.com",
              some (GoMap.set GoMap.empty "blue" 9223372036854775807)⟩⟩
          (.gained ⟨"u1", .BadgeColour_BLUE⟩) = some (s', none) ∧
        s'.accounts "u1" = some u' ∧ u'.BadgeCount = some m' ∧
        m' "blue" = some (-9223372036854775808) ∧
        m' "blue" ≠ some (9223372036854775807 + 1) :=
  ⟨_, _, _, rfl, rfl, rfl, by decide, by decide⟩

/-- C4 (amended): a BadgeGained event for an absent user adds a record with empty
full name and e-mail whose badge map is exactly the event's colour at 1; for a
present user with an allocated badge map it sets that colour to its previous count
(0 when the colour is missing) plus 1 in Go `int` arithmetic, which is the previous
count plus 1 when that count is an `int` below the largest one and the smallest
`int` when it is the largest, and leaves the other colours, the id, the full name
and the e-mail as they were. The event's colour is keyed by its name. -/
theorem C4_BadgeGained (s : streamProcessor) (evt : accounts.UserGainedBadgeEvent) :
    (toBC .BadgeColour_BLUE = "blue" ∧ toBC .BadgeColour_RED = "red" ∧
      toBC .BadgeColour_GREEN = "green") ∧
    (s.accounts evt.UserId = none →
      ∃ s' u m, s.Process (.gained evt) = some (s', none) ∧
        s'.accounts evt.UserId = some u ∧ u.FullName = "" ∧ u.Email = "" ∧
        u.BadgeCount = some m ∧ m (toBC evt.BadgeColour) = some 1 ∧
        ∀ c, c ≠ toBC evt.BadgeColour → m c = none) ∧
    (∀ u m, s.accounts evt.UserId = some u → u.BadgeCount = some m →
      ∃ s' u' m', s.Process (.gained evt) = some (s', none) ∧
        s'.accounts evt.UserId = some u' ∧ u'.BadgeCount = some m' ∧
        m' (toBC evt.BadgeColour) =
          some (wrapInt ((m (toBC evt.BadgeColour)).getD 0 + 1)) ∧
        (minInt ≤ (m (toBC evt.BadgeColour)).getD 0 →
          (m (toBC evt.BadgeColour)).getD 0 < maxInt →
          m' (toBC evt.BadgeColour) = some ((m (toBC evt.BadgeColour)).getD 0 + 1)) ∧
        ((m (toBC evt.BadgeColour)).getD 0 = maxInt →
          m' (toBC evt.BadgeColour) = some minInt) ∧
        (∀ c, c ≠ toBC evt.BadgeColour → m' c = m c) ∧
        u'.Id = u.Id ∧ u'.FullName = u.FullName ∧ u'.Email = u.Email) := by
  refine ⟨⟨rfl, rfl, rfl⟩, ?_, ?_⟩
  · intro h
    rw [Process_gained_eq_bump, bump_absent _ _ h]
    refine ⟨_, _, _, rfl, GoMap.set_self _ _ _, rfl, rfl, rfl, ?_,
      fun c hc => GoMap.set_other _ _ hc⟩
    rw [GoMap.set_self, wrapInt_one]
  · intro u m h hm
    rw [Process_gained_eq_bump, bump_present _ _ h hm]
    refine ⟨_, _, _, rfl, GoMap.set_self _ _ _, rfl, GoMap.set_self _ _ _, ?_, ?_,
      fun c hc => GoMap.set_other _ _ hc, rfl, rfl, rfl⟩
    · intro hlo hhi
      rw [GoMap.set_self, wrapInt_of_inRange]
      · unfold minInt at *; omega
      · unfold maxInt at *; omega
    · intro hmax
      rw [GoMap.set_self, hmax]
      decide

theorem C4_BadgeGained_witness :
    (∃ s' u m, NewStreamProcessor.Process (.gained ⟨"u1", .BadgeColour_BLUE⟩) = some (s', none) ∧
      s'.accounts "u1" = some u ∧ u.FullName = "" ∧ u.Email = "" ∧
      u.BadgeCount = some m ∧ m "blue" = some 1 ∧ ∀ c, c ≠ "blue" → m c = none) ∧
    (∃ s' u' m',
      streamProcessor.Process
          ⟨GoMap.set GoMap.empty "u1"
            ⟨"u1", "Ann", "ann@test.com", some (GoMap.set GoMap.empty "blue" 2)⟩⟩
          (.gained ⟨"u1", .BadgeColour_BLUE⟩) = some (s', none) ∧
        s'.accounts "u1" = some u' ∧ u'.BadgeCount = some m' ∧ m' "blue" = some 3 ∧
        (∀ c, c ≠ "blue" → m' c = (GoMap.set GoMap.empty "blue" (2 : Int)) c) ∧
        u'.Id = "u1" ∧ u'.FullName = "Ann" ∧ u'.Email = "ann@test.com") :=
  ⟨(C4_BadgeGained NewStreamProcessor ⟨"u1", .BadgeColour_BLUE⟩).2.1 rfl,
    (let ⟨s', u', m', h₁, h₂, h₃, _, h₅, _, h₇, h₈, h₉, h₁₀⟩ :=
      (C4_BadgeGained
        ⟨GoMap.set GoMap.empty "u1"
          ⟨"u1", "Ann", "ann@test.com", some (GoMap.set GoMap.empty "blue" 2)⟩⟩
        ⟨"u1", .BadgeColour_BLUE⟩).2.2 _ _ rfl rfl
     ⟨s', u', m', h₁, h₂, h₃, h₅ (by decide) (by decide), h₇, h₈, h₉, h₁₀⟩)⟩

/-- C5 (counterexample): on a projection in which user "u1" has red at the smallest
`int`, -9223372036854775808, a BadgeLost{u1, red} leaves red at the largest `int`,
9223372036854775807, and not at the previous count minus 1. -/
theorem C5_BadgeLost_wraps_at_minInt :
    ∃ s' u' m',
      streamProcessor.Process
          ⟨GoMap.set GoMap.empty "u1"
            ⟨"u1", "Ann", "ann@test.com",
              some (GoMap.set GoMap.empty "red" (-9223372036854775808))⟩⟩
          (.lost ⟨"u1", .BadgeColour_RED⟩) = some (s', none) ∧
        s'.accounts "u1" = some u' ∧ u'.BadgeCount = some m' ∧
        m' "red" = some 9223372036854775807 ∧
        m' "red" ≠ some (-9223372036854775808 - 1) :=
  ⟨_, _, _, rfl, rfl, rfl, by decide, by decide⟩

/-- C5 (amended): a BadgeLost event for an absent user adds a record whose badge map
is exactly the event's colour at -1; for a present user with an allocated badge map
it sets that colour to its previous count (0 when the colour is missing) minus 1 in
Go `int` arithmetic, which is the previous count minus 1 when that count is an `int`
above the smallest one, whatever its sign, and the largest `int` when it is the
smallest, so the count is negative when the colour was missing; and `BadgeStatus`
gives a tier for every record, negative counts included, great when blue is below
3. -/
theorem C5_BadgeLost (s : streamProcessor) (evt : accounts.UserLostBadgeEvent) :
    (s.accounts evt.UserId = none →
      ∃ s' u m, s.Process (.lost evt) = some (s', none) ∧
        s'.accounts evt.UserId = some u ∧ u.BadgeCount = some m ∧
        m (toBC evt.BadgeColour) = some (-1) ∧
        (∀ c, c ≠ toBC evt.BadgeColour → m c = none) ∧
        u.BadgeStatus = great) ∧
    (∀ u m, s.accounts evt.UserId = some u → u.BadgeCount = some m →
      ∃ s' u' m', s.Process (.lost evt) = some (s', none) ∧
        s'.accounts evt.UserId = some u' ∧ u'.BadgeCount = some m' ∧
        m' (toBC evt.BadgeColour) =
          some (wrapInt ((m (toBC evt.BadgeColour)).getD 0 - 1)) ∧
        (minInt < (m (toBC evt.BadgeColour)).getD 0 →
          (m (toBC evt.BadgeColour)).getD 0 ≤ maxInt →
          m' (toBC evt.BadgeColour) = some ((m (toBC evt.BadgeColour)).getD 0 - 1)) ∧
        ((m (toBC evt.BadgeColour)).getD 0 = minInt →
          m' (toBC evt.BadgeColour) = some maxInt) ∧
        (∀ c, c ≠ toBC evt.BadgeColour → m' c = m c) ∧
        (m (toBC evt.BadgeColour) = none → u'.count (toBC evt.BadgeColour) < 0) ∧
        u'.Id = u.Id ∧ u'.FullName = u.FullName ∧ u'.Email = u.Email) ∧
    (∀ u : User,
      (u.BadgeStatus = great ∨ u.BadgeStatus = amazing ∨ u.BadgeStatus = ultimate ∨
        u.BadgeStatus = champion) ∧
      (u.count blue < 3 → u.BadgeStatus = great)) := by
  refine ⟨?_, ?_, ?_⟩
  · intro h
    rw [Process_lost_eq_bump, bump_absent _ _ h, wrapInt_neg_one]
    refine ⟨_, _, _, rfl, GoMap.set_self _ _ _, rfl, GoMap.set_self _ _ _,
      fun c hc => GoMap.set_other _ _ hc, ?_⟩
    have hb : ∀ c, User.count
        { BadgeCount := some (GoMap.set GoMap.empty (toBC evt.BadgeColour) (-1)) } c ≤ 0 := by
      intro c
      by_cases hc : c = toBC evt.BadgeColour <;>
        simp [User.count, GoMap.get?, GoMap.set, GoMap.empty, hc]
    have h3 := hb blue
    simp only [User.BadgeStatus]
    rw [if_neg (by omega), if_neg (by omega), if_neg (by omega)]
  · intro u m h hm
    rw [Process_lost_eq_bump, bump_present _ _ h hm]
    refine ⟨_, _, _, rfl, GoMap.set_self _ _ _, rfl, ?_, ?_, ?_,
      fun c hc => GoMap.set_other _ _ hc, ?_, rfl, rfl, rfl⟩
    · rw [GoMap.set_self, sub_eq_add_neg]
    · intro hlo hhi
      rw [GoMap.set_self, ← sub_eq_add_neg, wrapInt_of_inRange]
      · unfold minInt at *; omega
      · unfold maxInt at *; omega
    · intro hmin
      rw [GoMap.set_self, hmin]
      decide
    · intro hnone
      simp [User.count, GoMap.get?, GoMap.set_self, hnone, wrapInt_neg_one]
  · intro u
    refine ⟨?_, ?_⟩
    · simp only [User.BadgeStatus]
      split
      · exact Or.inr (Or.inr (Or.inr rfl))
      · split
        · exact Or.inr (Or.inr (Or.inl rfl))
        · split
          · exact Or.inr (Or.inl rfl)
          · exact Or.inl rfl
    · intro hlt
      simp only [User.BadgeStatus]
      rw [if_neg (by omega), if_neg (by omega), if_neg (by omega)]

theorem C5_BadgeLost_witness :
    (∃ s' u m, NewStreamProcessor.Process (.lost ⟨"u1", .BadgeColour_RED⟩) = some (s', none) ∧
      s'.accounts "u1" = some u ∧ u.BadgeCount = some m ∧ m "red" = some (-1) ∧
      (∀ c, c ≠ "red" → m c = none) ∧ u.BadgeStatus = "great") ∧
    (∃ s' u' m',
      streamProcessor.Process
          ⟨GoMap.set GoMap.empty "u1"
            ⟨"u1", "Ann", "ann@test.com", some (GoMap.set GoMap.empty "blue" 0)⟩⟩
          (.lost ⟨"u1", .BadgeColour_BLUE⟩) = some (s', none) ∧
        s'.accounts "u1" = some u' ∧ u'.BadgeCount = some m' ∧ m' "blue" = some (-1)) ∧
    (User.count ⟨"u1", "", "", some (GoMap.set GoMap.empty "blue" (-4))⟩ blue < 3 ∧
      User.BadgeStatus ⟨"u1", "", "", some (GoMap.set GoMap.empty "blue" (-4))⟩ = "great") :=
  ⟨(C5_BadgeLost NewStreamProcessor ⟨"u1", .BadgeColour_RED⟩).1 rfl,
    (let ⟨s', u', m', h₁, h₂, h₃, _, h₅, _⟩ :=
      (C5_BadgeLost
        ⟨GoMap.set GoMap.empty "u1"
          ⟨"u1", "Ann", "ann@test.com", some (GoMap.set GoMap.empty "blue" 0)⟩⟩
        ⟨"u1", .BadgeColour_BLUE⟩).2.1 _ _ rfl rfl
     ⟨s', u', m', h₁, h₂, h₃, h₅ (by decide) (by decide)⟩),
    by decide,
    ((C5_BadgeLost NewStreamProcessor ⟨"u1", .BadgeColour_RED⟩).2.2
      ⟨"u1", "", "", some (GoMap.set GoMap.empty "blue" (-4))⟩).2 (by decide)⟩

theorem created_absent {s : streamProcessor} (evt : accounts.UserAccountCreatedEvent)
    (h : s.accounts evt.UserId = none) :
    s.Process (.created evt) =
      some ({ accounts := s.accounts.set evt.UserId
                { Id := evt.UserId, BadgeCount := some GoMap.empty } }, none) := by
  simp only [Process, processBadges, processUserAccountCreatedEvent, GoMap.get?, h]

theorem created_present {s : streamProcessor} {u : User}
    (evt : accounts.UserAccountCreatedEvent) (h : s.accounts evt.UserId = some u) :
    s.Process (.created evt) =
      some ({ accounts := s.accounts.set evt.UserId
                { u with Id := evt.UserId,
                         BadgeCount := some (u.BadgeCount.getD GoMap.empty) } }, none) := by
  simp only [Process, processBadges, processUserAccountCreatedEvent, GoMap.get?, h]
  cases hm : u.BadgeCount <;> simp [hm]

theorem updated_absent {s : streamProcessor} (evt : accounts.UserAccountUpdatedEvent)
    (h : s.accounts evt.UserId = none) :
    s.Process (.updated evt) =
      some ({ accounts := s.accounts.set evt.UserId
                { Id := evt.UserId, FullName := evt.FullName, Email := evt.Email,
                  BadgeCount := some GoMap.empty } }, none) := by
  simp only [Process, processBadges, processUserAccountUpdatedEvent, GoMap.get?, h]

theorem updated_present {s : streamProcessor} {u : User}
    (evt : accounts.UserAccountUpdatedEvent) (h : s.accounts evt.UserId = some u) :
    s.Process (.updated evt) =
      some ({ accounts := s.accounts.set evt.UserId
                { u with FullName := if evt.FullName ≠ "" then evt.FullName else u.FullName,
                         Email := if evt.Email ≠ "" then evt.Email else u.Email } }, none) := by
  simp only [Process, processBadges, processUserAccountUpdatedEvent, GoMap.get?, h]
  by_cases hf : evt.FullName = "" <;> by_cases he : evt.Email = "" <;> simp [hf, he]

/-- C6: an AccountUpdated event for a present user sets the full name to the
event's when that is non-empty and keeps it otherwise, likewise the e-mail, and
leaves the id and the badge map as they were; for an absent user it adds a record
with the user id as id, the event's full name and e-mail and an empty badge map. -/
theorem C6_AccountUpdated (s : streamProcessor) (evt : accounts.UserAccountUpdatedEvent) :
    (∀ u, s.accounts evt.UserId = some u →
      ∃ s' u', s.Process (.updated evt) = some (s', none) ∧
        s'.accounts evt.UserId = some u' ∧
        u'.FullName = (if evt.FullName ≠ "" then evt.FullName else u.FullName) ∧
        u'.Email = (if evt.Email ≠ "" then evt.Email else u.Email) ∧
        u'.BadgeCount = u.BadgeCount ∧ u'.Id = u.Id) ∧
    (s.accounts evt.UserId = none →
      ∃ s' u' m, s.Process (.updated evt) = some (s', none) ∧
        s'.accounts evt.UserId = some u' ∧
        u'.FullName = evt.FullName ∧ u'.Email = evt.Email ∧
        u'.BadgeCount = some m ∧ (∀ c, m c = none) ∧ u'.Id = evt.UserId) := by
  refine ⟨?_, ?_⟩
  · intro u h
    rw [updated_present evt h]
    exact ⟨_, _, rfl, GoMap.set_self _ _ _, rfl, rfl, rfl, rfl⟩
  · intro h
    rw [updated_absent evt h]
    exact ⟨_, _, _, rfl, GoMap.set_self _ _ _, rfl, rfl, rfl, fun _ => rfl, rfl⟩

theorem C6_AccountUpdated_witness :
    (∃ s' u',
      streamProcessor.Process
          ⟨GoMap.set GoMap.empty "u1"
            ⟨"u1", "Orig", "orig@test.com", some (GoMap.set GoMap.empty "blue" 2)⟩⟩
          (.updated { UserId := "u1", FullName := "X", Email := "" }) = some (s', none) ∧
        s'.accounts "u1" = some u' ∧ u'.FullName = "X" ∧ u'.Email = "orig@test.com" ∧
        u'.BadgeCount = some (GoMap.set GoMap.empty "blue" 2) ∧ u'.Id = "u1") ∧
    (∃ s' u' m,
      NewStreamProcessor.Process (.updated { UserId := "u1", FullName := "X" }) =
          some (s', none) ∧
        s'.accounts "u1" = some u' ∧ u'.FullName = "X" ∧ u'.Email = "" ∧
        u'.BadgeCount = some m ∧ (∀ c, m c = none) ∧ u'.Id = "u1") :=
  ⟨(C6_AccountUpdated
      ⟨GoMap.set GoMap.empty "u1"
        ⟨"u1", "Orig", "orig@test.com", some (GoMap.set GoMap.empty "blue" 2)⟩⟩
      { UserId := "u1", FullName := "X", Email := "" }).1 _ rfl,
    (C6_AccountUpdated NewStreamProcessor { UserId := "u1", FullName := "X" }).2 rfl⟩

/-- C7 (counterexample): after BadgeGained{u1, blue} on the empty projection the
record of "u1" has an allocated badge map and the empty string as id; a following
AccountCreated{u1} changes that record, whose badge map was not missing: its id
becomes "u1". -/
theorem C7_AccountCreated_sets_id_of_present_record :
    ∃ s₁ s₂ u u',
      NewStreamProcessor.Process (.gained ⟨"u1", .BadgeColour_BLUE⟩) = some (s₁, none) ∧
      s₁.accounts "u1" = some u ∧ u.Id = "" ∧ u.BadgeCount ≠ none ∧
      s₁.Process (.created ⟨"u1"⟩) = some (s₂, none) ∧
      s₂.accounts "u1" = some u' ∧ u'.BadgeCount = u.BadgeCount ∧
      u'.Id = "u1" ∧ u'.Id ≠ u.Id :=
  ⟨_, _, _, _, rfl, rfl, rfl, by simp [newUserWithBadgeCount], rfl, rfl, rfl, rfl, by decide⟩

/-- C7 (amended): an AccountCreated event for an absent user adds a record with the
user id as id, empty full name, empty e-mail and an empty badge map; for a present
user it sets the record's id to the user id, leaves the full name, the e-mail and
every badge count as they were, keeps an allocated badge map and replaces a nil one
by the empty map. -/
theorem C7_AccountCreated (s : streamProcessor) (evt : accounts.UserAccountCreatedEvent) :
    (s.accounts evt.UserId = none →
      ∃ s' u m, s.Process (.created evt) = some (s', none) ∧
        s'.accounts evt.UserId = some u ∧ u.Id = evt.UserId ∧
        u.FullName = "" ∧ u.Email = "" ∧ u.BadgeCount = some m ∧ ∀ c, m c = none) ∧
    (∀ u, s.accounts evt.UserId = some u →
      ∃ s' u', s.Process (.created evt) = some (s', none) ∧
        s'.accounts evt.UserId = some u' ∧ u'.Id = evt.UserId ∧
        u'.FullName = u.FullName ∧ u'.Email = u.Email ∧
        (∀ c, u'.count c = u.count c) ∧
        (∀ m, u.BadgeCount = some m → u'.BadgeCount = some m) ∧
        (u.BadgeCount = none → ∃ m, u'.BadgeCount = some m ∧ ∀ c, m c = none)) := by
  refine ⟨?_, ?_⟩
  · intro h
    rw [created_absent evt h]
    exact ⟨_, _, _, rfl, GoMap.set_self _ _ _, rfl, rfl, rfl, rfl, fun _ => rfl⟩
  · intro u h
    rw [created_present evt h]
    refine ⟨_, _, rfl, GoMap.set_self _ _ _, rfl, rfl, rfl, ?_, ?_, ?_⟩
    · intro c
      cases hm : u.BadgeCount <;> simp [User.count, hm, GoMap.get?, GoMap.empty]
    · intro m hm
      simp [hm]
    · intro hm
      exact ⟨GoMap.empty, by simp [hm], fun _ => rfl⟩

theorem C7_AccountCreated_witness :
    (∃ s' u m, NewStreamProcessor.Process (.created ⟨"u1"⟩) = some (s', none) ∧
      s'.accounts "u1" = some u ∧ u.Id = "u1" ∧ u.FullName = "" ∧ u.Email = "" ∧
      u.BadgeCount = some m ∧ ∀ c, m c = none) ∧
    (∃ s' u',
      streamProcessor.Process
          ⟨GoMap.set GoMap.empty "u1"
            ⟨"", "Ann", "ann@test.com", some (GoMap.set GoMap.empty "blue" 2)⟩⟩
          (.created ⟨"u1"⟩) = some (s', none) ∧
        s'.accounts "u1" = some u' ∧ u'.Id = "u1" ∧ u'.FullName = "Ann" ∧
        u'.Email = "ann@test.com" ∧
        u'.BadgeCount = some (GoMap.set GoMap.empty "blue" 2)) :=
  ⟨(C7_AccountCreated NewStreamProcessor ⟨"u1"⟩).1 rfl,
    (let ⟨s', u', h₁, h₂, h₃, h₄, h₅, _, h₇, _⟩ :=
      (C7_AccountCreated
        ⟨GoMap.set GoMap.empty "u1"
          ⟨"", "Ann", "ann@test.com", some (GoMap.set GoMap.empty "blue" 2)⟩⟩
        ⟨"u1"⟩).2 _ rfl
     ⟨s', u', h₁, h₂, h₃, h₄, h₅, h₇ _ rfl⟩)⟩

/-- C8: for every projection and every event that is not of one of the four
recognised types, `Process` returns, with a nil error, and the projection is the
one it was called on. -/
theorem C8_unrecognised_event_is_noop (s : streamProcessor) (evt : Event)
    (h : evt.recognised = false) : s.Process evt = some (s, none) := by
  cases evt with
  | other d => rfl
  | created e => simp [Event.recognised] at h
  | updated e => simp [Event.recognised] at h
  | gained e => simp [Event.recognised] at h
  | lost e => simp [Event.recognised] at h

theorem C8_unrecognised_event_is_noop_witness :
    (Event.other "*accounts.UserGainedBadgeEvent").recognised = false ∧
      streamProcessor.Process
          ⟨GoMap.set GoMap.empty "u1" ⟨"u1", "Ann", "ann@test.com", none⟩⟩
          (Event.other "*accounts.UserGainedBadgeEvent") =
        some (⟨GoMap.set GoMap.empty "u1" ⟨"u1", "Ann", "ann@test.com", none⟩⟩, none) :=
  ⟨rfl, C8_unrecognised_event_is_noop _ _ rfl⟩


/-! ## Invariants of reachable projections -/

theorem GoMap.forall_set {κ ν : Type} [DecidableEq κ] {P : ν → Prop} {m : GoMap κ ν}
    (hm : ∀ k v, m k = some v → P v) (k₀ : κ) {v₀ : ν} (h₀ : P v₀) :
    ∀ k v, (m.set k₀ v₀) k = some v → P v := by
  intro k v hk
  by_cases hkk : k = k₀
  · subst hkk
    rw [GoMap.set_self] at hk
    cases hk
    exact h₀
  · rw [GoMap.set_other _ _ hkk] at hk
    exact hm k v hk

theorem bump_preserves_allocated {s s' : streamProcessor} {err : error} {uid : String}
    {c : BadgeColour} {d : Int}
    (hinv : ∀ k u, s.accounts k = some u → u.BadgeCount ≠ none)
    (hstep : s.bump uid c d = some (s', err)) :
    ∀ k u, s'.accounts k = some u → u.BadgeCount ≠ none := by
  cases hs : s.accounts uid with
  | none =>
    rw [bump_absent c d hs] at hstep
    cases hstep
    exact GoMap.forall_set hinv _ (by simp)
  | some usr =>
    cases hm : usr.BadgeCount with
    | none => exact absurd hm (hinv uid usr hs)
    | some m =>
      rw [bump_present c d hs hm] at hstep
      cases hstep
      exact GoMap.forall_set hinv _ (by simp)

/-- One `Process` call keeps every record's badge map allocated. -/
theorem Process_preserves_allocated {s s' : streamProcessor} {err : error} (evt : Event)
    (hinv : ∀ k u, s.accounts k = some u → u.BadgeCount ≠ none)
    (hstep : s.Process evt = some (s', err)) :
    ∀ k u, s'.accounts k = some u → u.BadgeCount ≠ none := by
  cases evt with
  | created e =>
    cases hs : s.accounts e.UserId with
    | none =>
      rw [created_absent e hs] at hstep
      cases hstep
      exact GoMap.forall_set hinv _ (by simp)
    | some usr =>
      rw [created_present e hs] at hstep
      cases hstep
      exact GoMap.forall_set hinv _ (by simp)
  | updated e =>
    cases hs : s.accounts e.UserId with
    | none =>
      rw [updated_absent e hs] at hstep
      cases hstep
      exact GoMap.forall_set hinv _ (by simp)
    | some usr =>
      rw [updated_present e hs] at hstep
      cases hstep
      exact GoMap.forall_set hinv _ (hinv _ usr hs)
  | gained e =>
    rw [Process_gained_eq_bump] at hstep
    exact bump_preserves_allocated hinv hstep
  | lost e =>
    rw [Process_lost_eq_bump] at hstep
    exact bump_preserves_allocated hinv hstep
  | other d =>
    cases hstep
    exact hinv

/-- C9 (evaluation of the code): after the single event BadgeGained of user "u1"
on the empty projection, the record stored under "u1" has the empty string as id;
a following AccountUpdated of "u1" leaves it empty, a following AccountCreated sets
it to "u1"; and after BadgeGained events of "u1" and "u2" the two records have the
same id. -/
theorem C9_badge_created_record_has_empty_id :
    (∃ s u, Reachable s ∧
      NewStreamProcessor.processAll [.gained ⟨"u1", .BadgeColour_BLUE⟩] = some s ∧
      s.accounts "u1" = some u ∧ u.Id = "" ∧ u.Id ≠ "u1") ∧
    (∃ s u, Reachable s ∧
      NewStreamProcessor.processAll
        [.gained ⟨"u1", .BadgeColour_BLUE⟩, .updated { UserId := "u1", FullName := "Ann" }] =
          some s ∧
      s.accounts "u1" = some u ∧ u.Id = "" ∧ u.Id ≠ "u1") ∧
    (∃ s u, Reachable s ∧
      NewStreamProcessor.processAll
        [.gained ⟨"u1", .BadgeColour_BLUE⟩, .created ⟨"u1"⟩] = some s ∧
      s.accounts "u1" = some u ∧ u.Id = "u1") ∧
    (∃ s u₁ u₂, Reachable s ∧
      NewStreamProcessor.processAll
        [.gained ⟨"u1", .BadgeColour_BLUE⟩, .gained ⟨"u2", .BadgeColour_RED⟩] = some s ∧
      s.accounts "u1" = some u₁ ∧ s.accounts "u2" = some u₂ ∧ u₁.Id = u₂.Id) := by
  have r₁ : Reachable _ :=
    Reachable.step (.gained ⟨"u1", .BadgeColour_BLUE⟩) Reachable.init rfl
  have r₂ : Reachable _ :=
    Reachable.step (.updated { UserId := "u1", FullName := "Ann" }) r₁ rfl
  have r₃ : Reachable _ := Reachable.step (.created ⟨"u1"⟩) r₁ rfl
  have r₄ : Reachable _ := Reachable.step (.gained ⟨"u2", .BadgeColour_RED⟩) r₁ rfl
  exact ⟨⟨_, _, r₁, rfl, rfl, rfl, by decide⟩, ⟨_, _, r₂, rfl, rfl, rfl, by decide⟩,
    ⟨_, _, r₃, rfl, rfl, rfl⟩, ⟨_, _, _, r₄, rfl, rfl, rfl, rfl⟩⟩

/-- C10: in every projection reachable from the one of `NewStreamProcessor` by
`Process` calls, every record has an allocated (non-nil) badge map. -/
theorem C10_reachable_badge_map_allocated (s : streamProcessor) (hreach : Reachable s)
    (uid : String) (u : User) (hu : s.Result uid = some u) : u.BadgeCount ≠ none := by
  induction hreach generalizing uid u with
  | init => simp [Result, NewStreamProcessor, GoMap.empty] at hu
  | step evt _ hstep ih => exact Process_preserves_allocated evt ih hstep uid u hu

theorem C10_reachable_badge_map_allocated_witness :
    Reachable ⟨GoMap.set GoMap.empty "u1" (newUserWithBadgeCount .BadgeColour_RED (-1))⟩ ∧
    streamProcessor.Result
        ⟨GoMap.set GoMap.empty "u1" (newUserWithBadgeCount .BadgeColour_RED (-1))⟩ "u1" =
      some (newUserWithBadgeCount .BadgeColour_RED (-1)) ∧
    (newUserWithBadgeCount .BadgeColour_RED (-1)).BadgeCount ≠ none :=
  ⟨Reachable.step (.lost ⟨"u1", .BadgeColour_RED⟩) Reachable.init rfl, rfl,
    C10_reachable_badge_map_allocated _
      (Reachable.step (.lost ⟨"u1", .BadgeColour_RED⟩) Reachable.init rfl) "u1" _ rfl⟩

/-! ## What one call does to the set of records -/

theorem bump_error_nil {s s' : streamProcessor} {err : error} {uid : String} {c : BadgeColour}
    {d : Int} (hstep : s.bump uid c d = some (s', err)) :
    err = none ∧ ∃ r, s'.accounts = s.accounts.set uid r := by
  cases hs : s.accounts uid with
  | none =>
    rw [bump_absent c d hs] at hstep
    cases hstep
    exact ⟨rfl, _, rfl⟩
  | some usr =>
    cases hm : usr.BadgeCount with
    | none =>
      rw [bump_nil c d hs hm] at hstep
      cases hstep
    | some m =>
      rw [bump_present c d hs hm] at hstep
      cases hstep
      exact ⟨rfl, _, rfl⟩

/-- A call that returns, on an event of user `uid`, returns a nil error and has
stored one record, under `uid`. -/
theorem Process_stores_one {s s' : streamProcessor} {err : error} {evt : Event} {uid : String}
    (huid : evt.userId = some uid) (hstep : s.Process evt = some (s', err)) :
    err = none ∧ ∃ r, s'.accounts = s.accounts.set uid r := by
  cases evt with
  | created e =>
    have hu : e.UserId = uid := by simpa [Event.userId] using huid
    subst hu
    cases hs : s.accounts e.UserId with
    | none =>
      rw [created_absent e hs] at hstep
      cases hstep
      exact ⟨rfl, _, rfl⟩
    | some usr =>
      rw [created_present e hs] at hstep
      cases hstep
      exact ⟨rfl, _, rfl⟩
  | updated e =>
    have hu : e.UserId = uid := by simpa [Event.userId] using huid
    subst hu
    cases hs : s.accounts e.UserId with
    | none =>
      rw [updated_absent e hs] at hstep
      cases hstep
      exact ⟨rfl, _, rfl⟩
    | some usr =>
      rw [updated_present e hs] at hstep
      cases hstep
      exact ⟨rfl, _, rfl⟩
  | gained e =>
    have hu : e.UserId = uid := by simpa [Event.userId] using huid
    subst hu
    rw [Process_gained_eq_bump] at hstep
    exact bump_error_nil hstep
  | lost e =>
    have hu : e.UserId = uid := by simpa [Event.userId] using huid
    subst hu
    rw [Process_lost_eq_bump] at hstep
    exact bump_error_nil hstep
  | other d => simp [Event.userId] at huid

/-- A call returns, with a nil error, unless it is a badge event of a user whose
record has a nil badge map. -/
theorem Process_returns (s : streamProcessor) (evt : Event)
    (h : ∀ uid, evt.userId = some uid → badgeMapAllocated s uid) :
    ∃ s', s.Process evt = some (s', none) := by
  cases evt with
  | created e =>
    cases hs : s.accounts e.UserId with
    | none => exact ⟨_, created_absent e hs⟩
    | some usr => exact ⟨_, created_present e hs⟩
  | updated e =>
    cases hs : s.accounts e.UserId with
    | none => exact ⟨_, updated_absent e hs⟩
    | some usr => exact ⟨_, updated_present e hs⟩
  | gained e =>
    obtain ⟨s', hs', _⟩ := bump_total s e.UserId (toBC e.BadgeColour) 1 (h _ rfl)
    exact ⟨s', by rw [Process_gained_eq_bump]; exact hs'⟩
  | lost e =>
    obtain ⟨s', hs', _⟩ := bump_total s e.UserId (toBC e.BadgeColour) (-1) (h _ rfl)
    exact ⟨s', by rw [Process_lost_eq_bump]; exact hs'⟩
  | other d => exact ⟨s, rfl⟩

/-- Every record of a reachable projection has an allocated badge map. -/
theorem Reachable.allocated {s : streamProcessor} (hreach : Reachable s) :
    ∀ k u, s.accounts k = some u → u.BadgeCount ≠ none := by
  induction hreach with
  | init =>
    intro k u hu
    simp [NewStreamProcessor, GoMap.empty] at hu
  | step evt _ hstep ih => exact Process_preserves_allocated evt ih hstep

/-- C11: a call on an event of user `uid` returns whenever the record of `uid`, if
there is one, has an allocated badge map, and when it returns the user ids of the
projection are those it had before together with `uid`: none is removed, and `uid`
has a record, whichever of the four event types the event has. A call that does not
return (a badge event on a record with a nil badge map) was made on a projection
that already has a record of `uid`. -/
theorem C11_user_ids_grow_by_event_user (s : streamProcessor) (evt : Event) (uid : String)
    (huid : evt.userId = some uid) :
    evt.recognised = true ∧
    (badgeMapAllocated s uid → ∃ s', s.Process evt = some (s', none)) ∧
    (∀ s' err, s.Process evt = some (s', err) →
      ∀ k, (s'.Result k).isSome = true ↔ ((s.Result k).isSome = true ∨ k = uid)) ∧
    (s.Process evt = none → (s.Result uid).isSome = true) := by
  have hret : badgeMapAllocated s uid → ∃ s', s.Process evt = some (s', none) := by
    intro hal
    refine Process_returns s evt ?_
    intro uid' huid'
    rw [huid] at huid'
    cases huid'
    exact hal
  refine ⟨?_, hret, ?_, ?_⟩
  · cases evt <;> first | rfl | simp [Event.userId] at huid
  · intro s' err hstep k
    obtain ⟨_, r, hr⟩ := Process_stores_one huid hstep
    simp only [Result, hr]
    by_cases hk : k = uid
    · subst hk
      simp [GoMap.set_self]
    · simp [GoMap.set_other _ _ hk, hk]
  · intro hnone
    cases hs : s.accounts uid with
    | none =>
      obtain ⟨s', hs'⟩ := hret (fun usr husr => by rw [hs] at husr; cases husr)
      rw [hnone] at hs'
      cases hs'
    | some usr => simp [Result, hs]

theorem C11_user_ids_grow_by_event_user_witness :
    (Event.lost ⟨"u2", .BadgeColour_RED⟩).userId = some "u2" ∧
    (∃ s',
      streamProcessor.Process
          ⟨GoMap.set GoMap.empty "u1" ⟨"u1", "Ann", "ann@test.com", some GoMap.empty⟩⟩
          (.lost ⟨"u2", .BadgeColour_RED⟩) = some (s', none) ∧
        (s'.Result "u1").isSome = true ∧ (s'.Result "u2").isSome = true ∧
        (s'.Result "u3").isSome = false) :=
  ⟨rfl,
    (let h := C11_user_ids_grow_by_event_user
        ⟨GoMap.set GoMap.empty "u1" ⟨"u1", "Ann", "ann@test.com", some GoMap.empty⟩⟩
        (.lost ⟨"u2", .BadgeColour_RED⟩) "u2" rfl
     let ⟨s', hs'⟩ := h.2.1 (fun _ hu => by simp [GoMap.set, GoMap.empty] at hu)
     ⟨s', hs', (h.2.2.1 s' none hs' "u1").mpr (Or.inl rfl),
       (h.2.2.1 s' none hs' "u2").mpr (Or.inr rfl),
       by
         cases hv : (s'.Result "u3").isSome with
         | false => rfl
         | true =>
           rcases (h.2.2.1 s' none hs' "u3").mp hv with h3 | h3
           · simp [streamProcessor.Result, GoMap.set, GoMap.empty] at h3
           · simp at h3⟩)⟩

/-- C12: on every projection reachable from the one of `NewStreamProcessor` and for
every event, recognised or not, `Process` returns (no store into a nil badge map)
and the error it returns is nil; the projection it leaves is reachable again. -/
theorem C12_Process_total_on_reachable (s : streamProcessor) (hreach : Reachable s)
    (evt : Event) : ∃ s', s.Process evt = some (s', none) ∧ Reachable s' := by
  obtain ⟨s', hs'⟩ :=
    Process_returns s evt (fun uid _ usr husr => hreach.allocated uid usr husr)
  exact ⟨s', hs', Reachable.step evt hreach hs'⟩

theorem C12_Process_total_on_reachable_witness :
    Reachable ⟨GoMap.set GoMap.empty "u1" (newUserWithBadgeCount .BadgeColour_RED (-1))⟩ ∧
    ∃ s',
      streamProcessor.Process
          ⟨GoMap.set GoMap.empty "u1" (newUserWithBadgeCount .BadgeColour_RED (-1))⟩
          (.gained ⟨"u1", .BadgeColour_GREEN⟩) = some (s', none) ∧ Reachable s' :=
  ⟨Reachable.step (.lost ⟨"u1", .BadgeColour_RED⟩) Reachable.init rfl,
    C12_Process_total_on_reachable _
      (Reachable.step (.lost ⟨"u1", .BadgeColour_RED⟩) Reachable.init rfl)
      (.gained ⟨"u1", .BadgeColour_GREEN⟩)⟩

/-! ## Repeating and reordering events -/

/-- C13 (counterexample): on the empty projection, BadgeGained{u1, blue} applied once
leaves blue at 1 and applied twice leaves it at 2, and BadgeLost{u1, red} applied
once leaves red at -1 and applied twice at -2: for neither event is the projection
after two applications the one after a single application. -/
theorem C13_badge_events_not_idempotent :
    (∃ s₁ s₂ u₁ u₂,
      NewStreamProcessor.Process (.gained ⟨"u1", .BadgeColour_BLUE⟩) = some (s₁, none) ∧
      s₁.Process (.gained ⟨"u1", .BadgeColour_BLUE⟩) = some (s₂, none) ∧
      s₁.Result "u1" = some u₁ ∧ s₂.Result "u1" = some u₂ ∧
      u₁.count "blue" = 1 ∧ u₂.count "blue" = 2 ∧ s₂ ≠ s₁) ∧
    (∃ s₁ s₂ u₁ u₂,
      NewStreamProcessor.Process (.lost ⟨"u1", .BadgeColour_RED⟩) = some (s₁, none) ∧
      s₁.Process (.lost ⟨"u1", .BadgeColour_RED⟩) = some (s₂, none) ∧
      s₁.Result "u1" = some u₁ ∧ s₂.Result "u1" = some u₂ ∧
      u₁.count "red" = -1 ∧ u₂.count "red" = -2 ∧ s₂ ≠ s₁) := by
  refine ⟨⟨_, _, _, _, rfl, rfl, rfl, rfl, rfl, rfl, ?_⟩,
    ⟨_, _, _, _, rfl, rfl, rfl, rfl, rfl, rfl, ?_⟩⟩
  · intro h
    have h₁ := congrArg (fun t : streamProcessor => (t.accounts "u1").map (User.count · "blue")) h
    revert h₁
    decide
  · intro h
    have h₁ := congrArg (fun t : streamProcessor => (t.accounts "u1").map (User.count · "red")) h
    revert h₁
    decide

/-- C13 (amended): the AccountCreated and AccountUpdated rules are idempotent: on
every projection, `Process` with one such event returns and a second call with the
same event leaves the projection of the first call unchanged. The badge rules are
not: on a record with an allocated badge map, a second BadgeGained (BadgeLost)
leaves the colour's count at the count after the first plus 1 (minus 1) in Go `int`
arithmetic, which differs from the count after the first. -/
theorem C13_account_events_idempotent (s : streamProcessor) :
    (∀ e : accounts.UserAccountCreatedEvent,
      ∃ s', s.Process (.created e) = some (s', none) ∧
        s'.Process (.created e) = some (s', none)) ∧
    (∀ e : accounts.UserAccountUpdatedEvent,
      ∃ s', s.Process (.updated e) = some (s', none) ∧
        s'.Process (.updated e) = some (s', none)) ∧
    (∀ e : accounts.UserGainedBadgeEvent, badgeMapAllocated s e.UserId →
      ∃ s₁ s₂ u₁ u₂, s.Process (.gained e) = some (s₁, none) ∧
        s₁.Process (.gained e) = some (s₂, none) ∧
        s₁.Result e.UserId = some u₁ ∧ s₂.Result e.UserId = some u₂ ∧
        u₂.count (toBC e.BadgeColour) = wrapInt (u₁.count (toBC e.BadgeColour) + 1) ∧
        u₂.count (toBC e.BadgeColour) ≠ u₁.count (toBC e.BadgeColour)) ∧
    (∀ e : accounts.UserLostBadgeEvent, badgeMapAllocated s e.UserId →
      ∃ s₁ s₂ u₁ u₂, s.Process (.lost e) = some (s₁, none) ∧
        s₁.Process (.lost e) = some (s₂, none) ∧
        s₁.Result e.UserId = some u₁ ∧ s₂.Result e.UserId = some u₂ ∧
        u₂.count (toBC e.BadgeColour) = wrapInt (u₁.count (toBC e.BadgeColour) - 1) ∧
        u₂.count (toBC e.BadgeColour) ≠ u₁.count (toBC e.BadgeColour)) := by
  have hne : ∀ (y d : Int), d = 1 ∨ d = -1 → wrapInt (wrapInt y + d) ≠ wrapInt y := by
    intro y d hd
    unfold wrapInt
    omega
  have hbump : ∀ (uid : String) (c : BadgeColour) (d : Int), d = 1 ∨ d = -1 →
      badgeMapAllocated s uid →
      ∃ s₁ s₂ u₁ u₂, s.bump uid c d = some (s₁, none) ∧ s₁.bump uid c d = some (s₂, none) ∧
        s₁.Result uid = some u₁ ∧ s₂.Result uid = some u₂ ∧
        u₂.count c = wrapInt (u₁.count c + d) ∧ u₂.count c ≠ u₁.count c := by
    intro uid c d hd hal
    cases hs : s.accounts uid with
    | none =>
      refine ⟨_, _, _, _, bump_absent c d hs, bump_present c d (GoMap.set_self _ _ _) rfl,
        GoMap.set_self _ _ _, GoMap.set_self _ _ _, ?_, ?_⟩
      · simp [User.count, GoMap.get?, GoMap.set_self]
      · simpa [User.count, GoMap.get?, GoMap.set_self] using hne d d hd
    | some usr =>
      cases hm : usr.BadgeCount with
      | none => exact absurd hm (hal usr hs)
      | some m =>
        refine ⟨_, _, _, _, bump_present c d hs hm,
          bump_present c d (GoMap.set_self _ _ _) rfl,
          GoMap.set_self _ _ _, GoMap.set_self _ _ _, ?_, ?_⟩
        · simp [User.count, GoMap.get?, GoMap.set_self]
        · simpa [User.count, GoMap.get?, GoMap.set_self] using hne ((m c).getD 0 + d) d hd
  refine ⟨?_, ?_, ?_, ?_⟩
  · intro e
    cases hs : s.accounts e.UserId with
    | none =>
      refine ⟨_, created_absent e hs, ?_⟩
      rw [created_present e (GoMap.set_self _ _ _)]
      simp [GoMap.set_set]
    | some usr =>
      refine ⟨_, created_present e hs, ?_⟩
      rw [created_present e (GoMap.set_self _ _ _)]
      simp [GoMap.set_set]
  · intro e
    cases hs : s.accounts e.UserId with
    | none =>
      refine ⟨_, updated_absent e hs, ?_⟩
      rw [updated_present e (GoMap.set_self _ _ _)]
      simp [GoMap.set_set]
    | some usr =>
      refine ⟨_, updated_present e hs, ?_⟩
      rw [updated_present e (GoMap.set_self _ _ _)]
      by_cases hf : e.FullName = "" <;> by_cases he : e.Email = "" <;>
        simp [GoMap.set_set, hf, he]
  · intro e hal
    obtain ⟨s₁, s₂, u₁, u₂, h₁, h₂, h₃, h₄, h₅, h₆⟩ :=
      hbump e.UserId (toBC e.BadgeColour) 1 (Or.inl rfl) hal
    exact ⟨s₁, s₂, u₁, u₂, by rw [Process_gained_eq_bump]; exact h₁,
      by rw [Process_gained_eq_bump]; exact h₂, h₃, h₄, h₅, h₆⟩
  · intro e hal
    obtain ⟨s₁, s₂, u₁, u₂, h₁, h₂, h₃, h₄, h₅, h₆⟩ :=
      hbump e.UserId (toBC e.BadgeColour) (-1) (Or.inr rfl) hal
    exact ⟨s₁, s₂, u₁, u₂, by rw [Process_lost_eq_bump]; exact h₁,
      by rw [Process_lost_eq_bump]; exact h₂, h₃, h₄, by rw [h₅]; rfl, h₆⟩

theorem C13_account_events_idempotent_witness :
    (∃ s', NewStreamProcessor.Process (.created ⟨"u1"⟩) = some (s', none) ∧
      s'.Process (.created ⟨"u1"⟩) = some (s', none)) ∧
    (∃ s',
      NewStreamProcessor.Process (.updated { UserId := "u1", FullName := "Ann" }) =
          some (s', none) ∧
        s'.Process (.updated { UserId := "u1", FullName := "Ann" }) = some (s', none)) :=
  ⟨(C13_account_events_idempotent NewStreamProcessor).1 ⟨"u1"⟩,
    (C13_account_events_idempotent NewStreamProcessor).2.1 { UserId := "u1", FullName := "Ann" }⟩

/-- C14: AccountUpdated is last-write-wins: there are a projection and two
AccountUpdated events of one user, both with a non-empty full name and a non-empty
e-mail, for which the two orders of processing leave that user with different full
names and different e-mails, each order keeping the values of its last event. -/
theorem C14_AccountUpdated_order_dependent :
    ∃ (s : streamProcessor) (e₁ e₂ : accounts.UserAccountUpdatedEvent)
      (s₁₂ s₂₁ : streamProcessor) (u v : User),
      e₁.UserId = e₂.UserId ∧ e₁.FullName ≠ "" ∧ e₂.FullName ≠ "" ∧
      e₁.Email ≠ "" ∧ e₂.Email ≠ "" ∧
      s.processAll [.updated e₁, .updated e₂] = some s₁₂ ∧
      s.processAll [.updated e₂, .updated e₁] = some s₂₁ ∧
      s₁₂.Result e₁.UserId = some u ∧ s₂₁.Result e₁.UserId = some v ∧
      u.FullName = e₂.FullName ∧ v.FullName = e₁.FullName ∧
      u.Email = e₂.Email ∧ v.Email = e₁.Email ∧
      u.FullName ≠ v.FullName ∧ u.Email ≠ v.Email :=
  ⟨NewStreamProcessor, ⟨"u1", "Ann", "ann@test.com"⟩, ⟨"u1", "Bob", "bob@test.com"⟩, _, _, _, _,
    rfl, by decide, by decide, by decide, by decide, rfl, rfl, rfl, rfl, rfl, rfl, rfl, rfl,
    by decide, by decide⟩

/-! ## Tiers of the scenario and tier boundaries -/

/-- C15: after `eventSequence` has been processed in list order from the empty
projection, the badge status of user 0af3a961-… is amazing and that of user
6c5031e7-… (blue 8, red 5, green 1) is ultimate, not champion. -/
theorem C15_eventSequence_tiers :
    ∃ s u v, NewStreamProcessor.processAll eventSequence = some s ∧
      s.Result "0af3a961-5146-46b5-93f8-95c0ab687007" = some u ∧
      u.BadgeStatus = "amazing" ∧
      s.Result "6c5031e7-ff1c-4986-ac27-05a2737cd2f4" = some v ∧
      v.count "blue" = 8 ∧ v.count "red" = 5 ∧ v.count "green" = 1 ∧
      v.BadgeStatus = "ultimate" ∧ v.BadgeStatus ≠ "champion" :=
  ⟨_, _, _, rfl, rfl, by decide, rfl, by decide, by decide, by decide, by decide, by decide⟩

/-- C16: the tier boundaries are exact: `BadgeStatus` is champion on
{blue:10, red:5, green:1}, ultimate on {blue:6, red:3, green:0}, amazing on
{blue:3, red:0, green:0} and great on {blue:2, red:100, green:100}, whatever the
other fields of the record. -/
theorem C16_tier_boundaries (id fullName email : String) :
    User.BadgeStatus ⟨id, fullName, email,
        some (((GoMap.empty.set "blue" 10).set "red" 5).set "green" 1)⟩ = "champion" ∧
    User.BadgeStatus ⟨id, fullName, email,
        some (((GoMap.empty.set "blue" 6).set "red" 3).set "green" 0)⟩ = "ultimate" ∧
    User.BadgeStatus ⟨id, fullName, email,
        some (((GoMap.empty.set "blue" 3).set "red" 0).set "green" 0)⟩ = "amazing" ∧
    User.BadgeStatus ⟨id, fullName, email,
        some (((GoMap.empty.set "blue" 2).set "red" 100).set "green" 100)⟩ = "great" :=
  ⟨rfl, rfl, rfl, rfl⟩

/-! ## Frame and closed form -/

/-- C20: a call on an event of user `uid` returns whenever the record of `uid`, if
there is one, has an allocated badge map, and when it returns, what is stored under
any other user id `v` (no record, or a record with its id, full name, e-mail and
badge map) is what was stored there before. -/
theorem C20_other_users_untouched (s : streamProcessor) (evt : Event) (uid v : String)
    (huid : evt.userId = some uid) (hv : v ≠ uid) :
    (badgeMapAllocated s uid → ∃ s', s.Process evt = some (s', none)) ∧
    (∀ s' err, s.Process evt = some (s', err) → s'.Result v = s.Result v) := by
  refine ⟨?_, ?_⟩
  · intro hal
    refine Process_returns s evt ?_
    intro uid' huid'
    rw [huid] at huid'
    cases huid'
    exact hal
  · intro s' err hstep
    obtain ⟨_, r, hr⟩ := Process_stores_one huid hstep
    simp only [Result, hr]
    exact GoMap.set_other _ _ hv

theorem C20_other_users_untouched_witness :
    (Event.gained ⟨"u2", .BadgeColour_BLUE⟩).userId = some "u2" ∧ "u1" ≠ "u2" ∧
    ∃ s',
      streamProcessor.Process
          ⟨GoMap.set GoMap.empty "u1" ⟨"u1", "Ann", "ann@test.com", some GoMap.empty⟩⟩
          (.gained ⟨"u2", .BadgeColour_BLUE⟩) = some (s', none) ∧
        s'.Result "u1" = some ⟨"u1", "Ann", "ann@test.com", some GoMap.empty⟩ :=
  ⟨rfl, by decide,
    (let h := C20_other_users_untouched
        ⟨GoMap.set GoMap.empty "u1" ⟨"u1", "Ann", "ann@test.com", some GoMap.empty⟩⟩
        (.gained ⟨"u2", .BadgeColour_BLUE⟩) "u2" "u1" rfl (by decide)
     let ⟨s', hs'⟩ := h.1 (fun _ hu => by simp [GoMap.set, GoMap.empty] at hu)
     ⟨s', hs', (h.2 s' none hs').trans rfl⟩)⟩

theorem bump_countOf {s s' : streamProcessor} {err : error} {uid₀ : String} {c₀ : BadgeColour}
    {d : Int} (uid : String) (c : BadgeColour) (hstep : s.bump uid₀ c₀ d = some (s', err)) :
    s'.countOf uid c =
      if uid₀ = uid ∧ c₀ = c then wrapInt (s.countOf uid c + d) else s.countOf uid c := by
  by_cases hu : uid = uid₀
  · subst hu
    cases hs : s.accounts uid with
    | none =>
      rw [bump_absent c₀ d hs] at hstep
      cases hstep
      by_cases hc : c = c₀
      · subst hc
        simp [countOf, hs, GoMap.set_self, User.count, GoMap.get?]
      · have hc' : ¬ c₀ = c := fun h => hc h.symm
        simp [countOf, hs, GoMap.set_self, User.count, GoMap.get?, GoMap.set_other _ _ hc,
          GoMap.empty, hc']
    | some usr =>
      cases hm : usr.BadgeCount with
      | none =>
        rw [bump_nil c₀ d hs hm] at hstep
        cases hstep
      | some m =>
        rw [bump_present c₀ d hs hm] at hstep
        cases hstep
        by_cases hc : c = c₀
        · subst hc
          simp [countOf, hs, hm, GoMap.set_self, User.count, GoMap.get?]
        · have hc' : ¬ c₀ = c := fun h => hc h.symm
          simp [countOf, hs, hm, GoMap.set_self, User.count, GoMap.get?,
            GoMap.set_other _ _ hc, hc']
  · obtain ⟨_, r, hr⟩ := bump_error_nil hstep
    have hu' : ¬ uid₀ = uid := fun h => hu h.symm
    simp [countOf, hr, GoMap.set_other _ _ hu, hu']

/-- An event that is no badge event of user `uid` and colour `c` leaves the count of
that colour of that user as it was. -/
theorem Process_countOf_of_delta_zero {s s' : streamProcessor} {err : error} (evt : Event)
    (uid : String) (c : BadgeColour) (hstep : s.Process evt = some (s', err))
    (hd : evt.delta uid c = 0) : s'.countOf uid c = s.countOf uid c := by
  cases evt with
  | gained e =>
    rw [Process_gained_eq_bump] at hstep
    rw [bump_countOf uid c hstep]
    by_cases h : e.UserId = uid ∧ toBC e.BadgeColour = c
    · simp [Event.delta, h] at hd
    · rw [if_neg h]
  | lost e =>
    rw [Process_lost_eq_bump] at hstep
    rw [bump_countOf uid c hstep]
    by_cases h : e.UserId = uid ∧ toBC e.BadgeColour = c
    · simp [Event.delta, h] at hd
    · rw [if_neg h]
  | other d =>
    cases hstep
    rfl
  | created e =>
    by_cases hu : uid = e.UserId
    · subst hu
      cases hs : s.accounts e.UserId with
      | none =>
        rw [created_absent e hs] at hstep
        cases hstep
        simp [countOf, hs, GoMap.set_self, User.count, GoMap.get?, GoMap.empty]
      | some usr =>
        rw [created_present e hs] at hstep
        cases hstep
        cases hm : usr.BadgeCount <;>
          simp [countOf, hs, hm, GoMap.set_self, User.count, GoMap.get?, GoMap.empty]
    · obtain ⟨_, r, hr⟩ :=
        @Process_stores_one _ _ _ (.created e) e.UserId rfl hstep
      simp [countOf, hr, GoMap.set_other _ _ hu]
  | updated e =>
    by_cases hu : uid = e.UserId
    · subst hu
      cases hs : s.accounts e.UserId with
      | none =>
        rw [updated_absent e hs] at hstep
        cases hstep
        simp [countOf, hs, GoMap.set_self, User.count, GoMap.get?, GoMap.empty]
      | some usr =>
        rw [updated_present e hs] at hstep
        cases hstep
        simp [countOf, hs, GoMap.set_self, User.count]
    · obtain ⟨_, r, hr⟩ :=
        @Process_stores_one _ _ _ (.updated e) e.UserId rfl hstep
      simp [countOf, hr, GoMap.set_other _ _ hu]

/-- One call moves the count of colour `c` of user `uid` by the event's `delta`, in
Go `int` arithmetic. -/
theorem Process_countOf {s s' : streamProcessor} {err : error} (evt : Event) (uid : String)
    (c : BadgeColour) (x : Int) (hx : s.countOf uid c = wrapInt x)
    (hstep : s.Process evt = some (s', err)) :
    s'.countOf uid c = wrapInt (x + evt.delta uid c) := by
  by_cases hd : evt.delta uid c = 0
  · rw [Process_countOf_of_delta_zero evt uid c hstep hd, hd, add_zero, hx]
  · cases evt with
    | gained e =>
      rw [Process_gained_eq_bump] at hstep
      rw [bump_countOf uid c hstep]
      by_cases h : e.UserId = uid ∧ toBC e.BadgeColour = c
      · simp only [Event.delta, h, and_self, if_true, hx, wrapInt_wrapInt_add]
      · simp [Event.delta, h] at hd
    | lost e =>
      rw [Process_lost_eq_bump] at hstep
      rw [bump_countOf uid c hstep]
      by_cases h : e.UserId = uid ∧ toBC e.BadgeColour = c
      · simp only [Event.delta, h, and_self, if_true, hx, wrapInt_wrapInt_add]
      · simp [Event.delta, h] at hd
    | other d => simp [Event.delta] at hd
    | created e => simp [Event.delta] at hd
    | updated e => simp [Event.delta] at hd

theorem processAll_countOf (uid : String) (c : BadgeColour) (l : List Event) :
    ∀ (s s' : streamProcessor) (x : Int), s.countOf uid c = wrapInt x →
      s.processAll l = some s' →
      s'.countOf uid c = wrapInt (x + (l.map (Event.delta uid c)).sum) := by
  induction l with
  | nil =>
    intro s s' x hx h
    cases h
    simpa using hx
  | cons evt l ih =>
    intro s s' x hx h
    rw [processAll_cons] at h
    cases hstep : s.Process evt with
    | none => simp [hstep] at h
    | some r =>
      rw [hstep, Option.some_bind] at h
      rw [ih r.1 s' _ (Process_countOf evt uid c x hx hstep) h, List.map_cons, List.sum_cons,
        add_assoc]

theorem processAll_returns (l : List Event) :
    ∀ s : streamProcessor, (∀ k u, s.accounts k = some u → u.BadgeCount ≠ none) →
      ∃ s', s.processAll l = some s' := by
  induction l with
  | nil => intro s _; exact ⟨s, rfl⟩
  | cons evt l ih =>
    intro s hal
    obtain ⟨s₁, h₁⟩ := Process_returns s evt (fun uid _ usr husr => hal uid usr husr)
    obtain ⟨s', h'⟩ := ih s₁ (Process_preserves_allocated evt hal h₁)
    exact ⟨s', by rw [processAll_cons, h₁, Option.some_bind]; exact h'⟩

theorem toBC_eq_iff {col : accounts.BadgeColour}
    (hcol : col = .BadgeColour_BLUE ∨ col = .BadgeColour_RED ∨ col = .BadgeColour_GREEN)
    (col' : accounts.BadgeColour) : toBC col' = toBC col ↔ col' = col := by
  rcases hcol with h | h | h <;> subst h <;> cases col' <;> simp [toBC, blue, red, green]

theorem sum_delta_eq_count (uid : String) {col : accounts.BadgeColour}
    (hcol : col = .BadgeColour_BLUE ∨ col = .BadgeColour_RED ∨ col = .BadgeColour_GREEN)
    (l : List Event) :
    (l.map (Event.delta uid (toBC col))).sum =
      (l.count (Event.gained ⟨uid, col⟩) : Int) - (l.count (Event.lost ⟨uid, col⟩) : Int) := by
  induction l with
  | nil => simp
  | cons evt l ih =>
    rw [List.map_cons, List.sum_cons, ih, List.count_cons, List.count_cons]
    cases evt with
    | gained e =>
      obtain ⟨u, c'⟩ := e
      by_cases h : u = uid ∧ c' = col
      · obtain ⟨hu, hc⟩ := h
        subst hu hc
        simp [Event.delta]
        ring
      · have h' : ¬ (u = uid ∧ toBC c' = toBC col) := by
          rw [toBC_eq_iff hcol]; exact h
        simp [Event.delta, h, h']
    | lost e =>
      obtain ⟨u, c'⟩ := e
      by_cases h : u = uid ∧ c' = col
      · obtain ⟨hu, hc⟩ := h
        subst hu hc
        simp [Event.delta]
        ring
      · have h' : ¬ (u = uid ∧ toBC c' = toBC col) := by
          rw [toBC_eq_iff hcol]; exact h
        simp [Event.delta, h, h']
    | created e => simp [Event.delta]
    | updated e => simp [Event.delta]
    | other d => simp [Event.delta]

/-- C19: for every list of events processed in order from the empty projection,
every user id and each of the colours blue, red and green, the run returns and the
count of the colour read from the user's record (0 when the user or the colour key
is absent) is, in Go `int` arithmetic, the number of BadgeGained events of that user
and colour in the list minus the number of BadgeLost events of them, whatever other
events are in the list; for a list no longer than the largest `int`, as every Go
slice is, it is that difference itself. -/
theorem C19_count_closed_form (l : List Event) (uid : String) (col : accounts.BadgeColour)
    (hcol : col = .BadgeColour_BLUE ∨ col = .BadgeColour_RED ∨ col = .BadgeColour_GREEN) :
    ∃ s, NewStreamProcessor.processAll l = some s ∧
      s.countOf uid (toBC col) =
        wrapInt ((l.count (Event.gained ⟨uid, col⟩) : Int) -
          (l.count (Event.lost ⟨uid, col⟩) : Int)) ∧
      ((l.length : Int) ≤ maxInt →
        s.countOf uid (toBC col) =
          (l.count (Event.gained ⟨uid, col⟩) : Int) - (l.count (Event.lost ⟨uid, col⟩) : Int)) := by
  obtain ⟨s, hs⟩ := processAll_returns l NewStreamProcessor
    (fun k u hu => by simp [NewStreamProcessor, GoMap.empty] at hu)
  have h₀ : NewStreamProcessor.countOf uid (toBC col) = wrapInt 0 := by
    simp [countOf, NewStreamProcessor, GoMap.empty, wrapInt]
  have hcount := processAll_countOf uid (toBC col) l _ s 0 h₀ hs
  rw [zero_add, sum_delta_eq_count uid hcol] at hcount
  refine ⟨s, hs, hcount, ?_⟩
  intro hlen
  rw [hcount]
  have hg : (l.count (Event.gained ⟨uid, col⟩) : Int) ≤ l.length := by
    exact_mod_cast List.count_le_length _ l
  have hl : (l.count (Event.lost ⟨uid, col⟩) : Int) ≤ l.length := by
    exact_mod_cast List.count_le_length _ l
  apply wrapInt_of_inRange
  · unfold minInt; unfold maxInt at hlen; omega
  · unfold maxInt at *; omega

theorem C19_count_closed_form_witness :
    (accounts.BadgeColour.BadgeColour_BLUE = .BadgeColour_BLUE ∨
      accounts.BadgeColour.BadgeColour_BLUE = .BadgeColour_RED ∨
      accounts.BadgeColour.BadgeColour_BLUE = .BadgeColour_GREEN) ∧
    ∃ s,
      NewStreamProcessor.processAll
          [.lost ⟨"u1", .BadgeColour_BLUE⟩, .created ⟨"u1"⟩, .lost ⟨"u1", .BadgeColour_BLUE⟩,
            .gained ⟨"u2", .BadgeColour_BLUE⟩, .other "int", .gained ⟨"u1", .BadgeColour_BLUE⟩,
            .updated { UserId := "u1", FullName := "Ann" }, .lost ⟨"u1", .BadgeColour_BLUE⟩] =
          some s ∧
        s.countOf "u1" "blue" = -2 :=
  ⟨Or.inl rfl,
    (let ⟨s, h₁, _, h₃⟩ := C19_count_closed_form
        [.lost ⟨"u1", .BadgeColour_BLUE⟩, .created ⟨"u1"⟩, .lost ⟨"u1", .BadgeColour_BLUE⟩,
          .gained ⟨"u2", .BadgeColour_BLUE⟩, .other "int", .gained ⟨"u1", .BadgeColour_BLUE⟩,
          .updated { UserId := "u1", FullName := "Ann" }, .lost ⟨"u1", .BadgeColour_BLUE⟩]
        "u1" .BadgeColour_BLUE (Or.inl rfl)
     ⟨s, h₁, (h₃ (by decide)).trans (by decide)⟩)⟩

/-! ## The readers -/

theorem Read_value_cons {σ : Type} (Process : σ → Event → σ × error) (p : σ) (evt : Event)
    (rest : List Recv) :
    streamReader.Read Process p (Recv.value evt :: rest) =
      { processor := (streamReader.Read Process (Process p evt).1 rest).processor,
        calls := evt :: (streamReader.Read Process (Process p evt).1 rest).calls,
        logged :=
          if (Process p evt).2 ≠ none then
            evt :: (streamReader.Read Process (Process p evt).1 rest).logged
          else (streamReader.Read Process (Process p evt).1 rest).logged,
        returned := (streamReader.Read Process (Process p evt).1 rest).returned } := rfl

theorem Read_delivered {σ : Type} (Process : σ → Event → σ × error) (l : List Event)
    (tail : List Recv) :
    ∀ p : σ,
      (streamReader.Read Process p (l.map Recv.value ++ tail)).calls =
          l ++ (streamReader.Read Process (l.foldl (fun q e => (Process q e).1) p) tail).calls ∧
        (streamReader.Read Process p (l.map Recv.value ++ tail)).returned =
          (streamReader.Read Process (l.foldl (fun q e => (Process q e).1) p) tail).returned ∧
        (streamReader.Read Process p (l.map Recv.value ++ tail)).processor =
          (streamReader.Read Process (l.foldl (fun q e => (Process q e).1) p) tail).processor := by
  induction l with
  | nil => intro p; exact ⟨rfl, rfl, rfl⟩
  | cons evt l ih =>
    intro p
    obtain ⟨h₁, h₂, h₃⟩ := ih (Process p evt).1
    rw [List.map_cons, List.cons_append, Read_value_cons, List.foldl_cons]
    exact ⟨congrArg (evt :: ·) h₁, h₂, h₃⟩

theorem Read_logged_of_errors {σ : Type} (Process : σ → Event → σ × error)
    (herr : ∀ q e, (Process q e).2 ≠ none) (l : List Event) :
    ∀ p : σ,
      (streamReader.Read Process p (l.map Recv.value ++ [Recv.closedAndDrained])).logged = l := by
  induction l with
  | nil => intro p; rfl
  | cons evt l ih =>
    intro p
    rw [List.map_cons, List.cons_append, Read_value_cons]
    show (if (Process p evt).2 ≠ none then _ else _) = _
    rw [if_pos (herr p evt), ih]

/-- C17: for every processor (a state and a `Process` whose calls return) and every
list of events delivered to a reader: when the channel is then closed and drained,
`Read` has returned, after calling `Process` exactly on the delivered events, once
each and in delivery order, the processor being the one left by those calls; when
every call returns an error, every event is still passed on, and logged; and while
no receive has yet reported the channel closed and drained, `Read` has made the same
calls and has not returned. -/
theorem C17_Read_calls_Process_on_each_event {σ : Type} (Process : σ → Event → σ × error)
    (p : σ) (l : List Event) :
    (streamReader.Read Process p (l.map Recv.value ++ [Recv.closedAndDrained])).calls = l ∧
    (streamReader.Read Process p (l.map Recv.value ++ [Recv.closedAndDrained])).returned = true ∧
    (streamReader.Read Process p (l.map Recv.value ++ [Recv.closedAndDrained])).processor =
      l.foldl (fun q e => (Process q e).1) p ∧
    ((∀ q e, (Process q e).2 ≠ none) →
      (streamReader.Read Process p (l.map Recv.value ++ [Recv.closedAndDrained])).logged = l) ∧
    (streamReader.Read Process p (l.map Recv.value)).calls = l ∧
    (streamReader.Read Process p (l.map Recv.value)).returned = false := by
  obtain ⟨h₁, h₂, h₃⟩ := Read_delivered Process l [Recv.closedAndDrained] p
  obtain ⟨h₄, h₅, _⟩ := Read_delivered Process l [] p
  rw [List.append_nil] at h₄ h₅
  refine ⟨?_, ?_, ?_, ?_, ?_, ?_⟩
  · rw [h₁]; simp [streamReader.Read]
  · rw [h₂]; rfl
  · rw [h₃]; rfl
  · intro herr
    exact Read_logged_of_errors Process herr l p
  · rw [h₄]; simp [streamReader.Read]
  · rw [h₅]; rfl

theorem C17_Read_calls_Process_on_each_event_witness :
    (streamReader.Read (fun (q : List Event) e => (q ++ [e], some "rejected")) []
        ([Event.other "int", Event.created ⟨"u1"⟩, Event.other "int"].map Recv.value ++
          [Recv.closedAndDrained])).processor =
        [Event.other "int", Event.created ⟨"u1"⟩, Event.other "int"] ∧
    (streamReader.Read (fun (q : List Event) e => (q ++ [e], some "rejected")) []
        ([Event.other "int", Event.created ⟨"u1"⟩, Event.other "int"].map Recv.value ++
          [Recv.closedAndDrained])).logged =
        [Event.other "int", Event.created ⟨"u1"⟩, Event.other "int"] :=
  ⟨(C17_Read_calls_Process_on_each_event (fun (q : List Event) e => (q ++ [e], some "rejected"))
      [] [Event.other "int", Event.created ⟨"u1"⟩, Event.other "int"]).2.2.1,
    (C17_Read_calls_Process_on_each_event (fun (q : List Event) e => (q ++ [e], some "rejected"))
      [] [Event.other "int", Event.created ⟨"u1"⟩, Event.other "int"]).2.2.2.1
      (fun _ _ => by simp)⟩

/-- C18 (evaluation of the code): there is a run of `NewStreamReader` on the empty
projection at whose end `NewStreamReader` has returned while the last three events
of `eventSequence` are still in the buffer of the channel, not applied: the
projection then has user 6c5031e7-… at red 4 with no green key and user 0af3a961-…
named "Anthony Swiss", where processing the list in order gives red 5, green 1 and
"Anthony Swiss-Jones". -/
theorem C18_NewStreamReader_returns_before_readers_finish :
    ∃ st u v ref u' v',
      (NewStreamReader NewStreamProcessor).run lateReaders = some st ∧
      st.returned = true ∧ st.evtChan = eventSequence.drop 39 ∧ st.evtChan.length = 3 ∧
      st.processor.Result "6c5031e7-ff1c-4986-ac27-05a2737cd2f4" = some u ∧
      u.count "red" = 4 ∧ (∃ m, u.BadgeCount = some m ∧ m "green" = none) ∧
      st.processor.Result "0af3a961-5146-46b5-93f8-95c0ab687007" = some v ∧
      v.FullName = "Anthony Swiss" ∧
      NewStreamProcessor.processAll eventSequence = some ref ∧
      ref.Result "6c5031e7-ff1c-4986-ac27-05a2737cd2f4" = some u' ∧
      u'.count "red" = 5 ∧ u'.count "green" = 1 ∧
      ref.Result "0af3a961-5146-46b5-93f8-95c0ab687007" = some v' ∧
      v'.FullName = "Anthony Swiss-Jones" :=
  ⟨_, _, _, _, _, _, rfl, rfl, rfl, rfl, rfl, by decide, ⟨_, rfl, rfl⟩, rfl, rfl, rfl, rfl,
    by decide, by decide, rfl, rfl⟩

/-! ## The classifier is monotone -/

/-- The place of a record's tier, in terms of its three counts. -/
theorem tierRank_BadgeStatus (u : User) :
    tierRank u.BadgeStatus =
      if 10 ≤ u.count blue ∧ 5 ≤ u.count red ∧ 1 ≤ u.count green then 3
      else if 6 ≤ u.count blue ∧ 3 ≤ u.count red then 2
      else if 3 ≤ u.count blue then 1
      else 0 := by
  simp only [User.BadgeStatus, ge_iff_le]
  split_ifs <;> decide

theorem tierRank_mono {u v : User} (hb : u.count blue ≤ v.count blue)
    (hr : u.count red ≤ v.count red) (hg : u.count green ≤ v.count green) :
    tierRank u.BadgeStatus ≤ tierRank v.BadgeStatus := by
  rw [tierRank_BadgeStatus, tierRank_BadgeStatus]
  split_ifs <;> omega

/-- The counts of a record whose colour `c` has been moved by `d` in Go `int`
arithmetic. -/
theorem count_set_add (usr : User) (m : GoMap BadgeColour Int) (hm : usr.BadgeCount = some m)
    (c : BadgeColour) (d : Int) (k : BadgeColour) :
    User.count { usr with BadgeCount := some (m.set c (wrapInt ((m c).getD 0 + d))) } k =
      if k = c then wrapInt (usr.count c + d) else usr.count k := by
  by_cases hk : k = c
  · subst hk
    simp [User.count, hm, GoMap.get?, GoMap.set_self]
  · simp [User.count, hm, GoMap.get?, GoMap.set_other _ _ hk, hk]

/-- C21 (counterexample): on a record with blue at the largest `int` a
BadgeGained{u1, blue} lowers the tier from amazing to great, and on a record with
blue at the smallest `int` a BadgeLost{u1, blue} raises it from great to amazing. -/
theorem C21_tier_not_monotone_at_int_bounds :
    (∃ s' u',
      streamProcessor.Process
          ⟨GoMap.set GoMap.empty "u1"
            ⟨"u1", "", "", some (GoMap.set GoMap.empty "blue" 9223372036854775807)⟩⟩
          (.gained ⟨"u1", .BadgeColour_BLUE⟩) = some (s', none) ∧
        s'.Result "u1" = some u' ∧
        User.BadgeStatus
            ⟨"u1", "", "", some (GoMap.set GoMap.empty "blue" 9223372036854775807)⟩ =
          "amazing" ∧
        u'.BadgeStatus = "great" ∧
        tierRank u'.BadgeStatus <
          tierRank (User.BadgeStatus
            ⟨"u1", "", "", some (GoMap.set GoMap.empty "blue" 9223372036854775807)⟩)) ∧
    (∃ s' u',
      streamProcessor.Process
          ⟨GoMap.set GoMap.empty "u1"
            ⟨"u1", "", "", some (GoMap.set GoMap.empty "blue" (-9223372036854775808))⟩⟩
          (.lost ⟨"u1", .BadgeColour_BLUE⟩) = some (s', none) ∧
        s'.Result "u1" = some u' ∧
        User.BadgeStatus
            ⟨"u1", "", "", some (GoMap.set GoMap.empty "blue" (-9223372036854775808))⟩ =
          "great" ∧
        u'.BadgeStatus = "amazing" ∧
        tierRank (User.BadgeStatus
            ⟨"u1", "", "", some (GoMap.set GoMap.empty "blue" (-9223372036854775808))⟩) <
          tierRank u'.BadgeStatus) :=
  ⟨⟨_, _, rfl, rfl, by decide, by decide, by decide⟩,
    ⟨_, _, rfl, rfl, by decide, by decide, by decide⟩⟩

/-- C21 (amended): with the places great < amazing < ultimate < champion,
`BadgeStatus` is monotone: a record whose blue, red and green counts (absent read as
0) are each at least those of another has a tier at least that of the other. Hence
a BadgeGained event on a record with an allocated badge map whose count of the
colour is an `int` below the largest one leaves a tier at least the one before, and
a BadgeLost event on one whose count is an `int` above the smallest one a tier at
most the one before; on an absent user both leave the lowest tier. -/
theorem C21_BadgeStatus_monotone (s : streamProcessor) :
    (tierRank great < tierRank amazing ∧ tierRank amazing < tierRank ultimate ∧
      tierRank ultimate < tierRank champion) ∧
    (∀ u v : User, u.count blue ≤ v.count blue → u.count red ≤ v.count red →
      u.count green ≤ v.count green → tierRank u.BadgeStatus ≤ tierRank v.BadgeStatus) ∧
    (∀ (e : accounts.UserGainedBadgeEvent) (u : User),
      s.accounts e.UserId = some u → u.BadgeCount ≠ none →
      minInt ≤ u.count (toBC e.BadgeColour) → u.count (toBC e.BadgeColour) < maxInt →
      ∃ s' u', s.Process (.gained e) = some (s', none) ∧ s'.Result e.UserId = some u' ∧
        tierRank u.BadgeStatus ≤ tierRank u'.BadgeStatus) ∧
    (∀ (e : accounts.UserLostBadgeEvent) (u : User),
      s.accounts e.UserId = some u → u.BadgeCount ≠ none →
      minInt < u.count (toBC e.BadgeColour) → u.count (toBC e.BadgeColour) ≤ maxInt →
      ∃ s' u', s.Process (.lost e) = some (s', none) ∧ s'.Result e.UserId = some u' ∧
        tierRank u'.BadgeStatus ≤ tierRank u.BadgeStatus) ∧
    (∀ e : accounts.UserGainedBadgeEvent, s.accounts e.UserId = none →
      ∃ s' u', s.Process (.gained e) = some (s', none) ∧ s'.Result e.UserId = some u' ∧
        u'.BadgeStatus = great) ∧
    (∀ e : accounts.UserLostBadgeEvent, s.accounts e.UserId = none →
      ∃ s' u', s.Process (.lost e) = some (s', none) ∧ s'.Result e.UserId = some u' ∧
        u'.BadgeStatus = great) := by
  have hnew : ∀ (c : BadgeColour) (d : Int), d ≤ 1 →
      User.BadgeStatus { BadgeCount := some (GoMap.set GoMap.empty c d) } = great := by
    intro c d hd
    have hb : User.count { BadgeCount := some (GoMap.set GoMap.empty c d) } blue ≤ 1 := by
      by_cases hc : blue = c
      · simp [User.count, GoMap.get?, GoMap.set, hc, hd]
      · simp [User.count, GoMap.get?, GoMap.set, GoMap.empty, hc]
    simp only [User.BadgeStatus]
    rw [if_neg (by omega), if_neg (by omega), if_neg (by omega)]
  refine ⟨⟨by decide, by decide, by decide⟩, fun u v => tierRank_mono, ?_, ?_, ?_, ?_⟩
  · intro e u hu hal hlo hhi
    cases hm : u.BadgeCount with
    | none => exact absurd hm hal
    | some m =>
      refine ⟨_, _, (Process_gained_eq_bump s e).trans (bump_present _ _ hu hm),
        GoMap.set_self _ _ _, ?_⟩
      have hw : wrapInt (u.count (toBC e.BadgeColour) + 1) =
          u.count (toBC e.BadgeColour) + 1 := by
        apply wrapInt_of_inRange
        · unfold minInt at *; omega
        · unfold maxInt at *; omega
      apply tierRank_mono <;> rw [count_set_add u m hm] <;> split_ifs with hk <;>
        first
          | exact le_refl _
          | (rw [hw, ← hk]; omega)
  · intro e u hu hal hlo hhi
    cases hm : u.BadgeCount with
    | none => exact absurd hm hal
    | some m =>
      refine ⟨_, _, (Process_lost_eq_bump s e).trans (bump_present _ _ hu hm),
        GoMap.set_self _ _ _, ?_⟩
      have hw : wrapInt (u.count (toBC e.BadgeColour) + -1) =
          u.count (toBC e.BadgeColour) + -1 := by
        apply wrapInt_of_inRange
        · unfold minInt at *; omega
        · unfold maxInt at *; omega
      apply tierRank_mono <;> rw [count_set_add u m hm] <;> split_ifs with hk <;>
        first
          | exact le_refl _
          | (rw [hw, ← hk]; omega)
  · intro e hu
    exact ⟨_, _, (Process_gained_eq_bump s e).trans (bump_absent _ _ hu),
      GoMap.set_self _ _ _, hnew _ _ (by rw [wrapInt_one])⟩
  · intro e hu
    exact ⟨_, _, (Process_lost_eq_bump s e).trans (bump_absent _ _ hu),
      GoMap.set_self _ _ _, hnew _ _ (by rw [wrapInt_neg_one]; omega)⟩

theorem C21_BadgeStatus_monotone_witness :
    (tierRank (User.BadgeStatus ⟨"u1", "", "", some (GoMap.set GoMap.empty "blue" 2)⟩) ≤
      tierRank (User.BadgeStatus
        ⟨"u2", "", "", some ((GoMap.set GoMap.empty "blue" 7).set "red" 3)⟩)) ∧
    (∃ s' u',
      streamProcessor.Process
          ⟨GoMap.set GoMap.empty "u1" ⟨"u1", "", "", some (GoMap.set GoMap.empty "blue" 2)⟩⟩
          (.gained ⟨"u1", .BadgeColour_BLUE⟩) = some (s', none) ∧
        s'.Result "u1" = some u' ∧
        tierRank (User.BadgeStatus ⟨"u1", "", "", some (GoMap.set GoMap.empty "blue" 2)⟩) ≤
          tierRank u'.BadgeStatus) ∧
    (∃ s' u',
      streamProcessor.Process
          ⟨GoMap.set GoMap.empty "u1" ⟨"u1", "", "", some (GoMap.set GoMap.empty "blue" 3)⟩⟩
          (.lost ⟨"u1", .BadgeColour_BLUE⟩) = some (s', none) ∧
        s'.Result "u1" = some u' ∧
        tierRank u'.BadgeStatus ≤
          tierRank (User.BadgeStatus ⟨"u1", "", "", some (GoMap.set GoMap.empty "blue" 3)⟩)) :=
  ⟨(C21_BadgeStatus_monotone NewStreamProcessor).2.1 _ _ (by decide) (by decide) (by decide),
    (C21_BadgeStatus_monotone
      ⟨GoMap.set GoMap.empty "u1" ⟨"u1", "", "", some (GoMap.set GoMap.empty "blue" 2)⟩⟩).2.2.1
      ⟨"u1", .BadgeColour_BLUE⟩ _ rfl (by simp) (by decide) (by decide),
    (C21_BadgeStatus_monotone
      ⟨GoMap.set GoMap.empty "u1" ⟨"u1", "", "", some (GoMap.set GoMap.empty "blue" 3)⟩⟩).2.2.2.1
      ⟨"u1", .BadgeColour_BLUE⟩ _ rfl (by simp) (by decide) (by decide)⟩

end Events
